import Mathlib

/-!
# Autograd `Variable` bookkeeping (torch/csrc/autograd/variable.cpp)

A shallow embedding of `variable.cpp` over an explicit heap.

The C++ objects reachable through pointers (`shared_ptr<Variable>`,
`shared_ptr<Function>`, the counter cell shared by a `VariableVersion` and its
saved references, and tensor storage) live in typed stores of a `Heap`; a
pointer is an index into its store and allocation appends to the store.
Objects are never freed in the model (reference counts are not tracked).

Every method takes the heap and returns the heap it leaves behind together
with either its return value or the exception it throws.  Dereferencing a
pointer that is null or not allocated is undefined behaviour in C++; the
model reports it as `Error.undefinedBehaviour`, and theorems assume the
pointers they are given are allocated.

Counters (`num_outputs`, the version counter) are C++ `int`s whose
declarations are in headers outside this file; signed overflow has no defined
behaviour, so the model follows the specification ("a single non-negative
integer") and uses unbounded naturals.

The `WITH_CUDA` block of `backward` (device-context switch) is not modelled.
-/

namespace Autograd

/-- The exceptions of this file are all `std::runtime_error`; they are told
apart by their message (see `Error.what`).  `tensorLibrary` stands for an error
raised by the external tensor library and `undefinedBehaviour` for a
dereference of a null or unallocated pointer. -/
inductive Error where
  | dataIsNull
  | leafInplace
  | wrongNumGradOutputs
  | modifiedInplace
  | tensorLibrary
  | undefinedBehaviour
  deriving DecidableEq, Repr

/-- The message carried by each exception thrown in `variable.cpp`. -/
def Error.what : Error → String
  | .dataIsNull => "Variable data is NULL"
  | .leafInplace => "leaf variable was used in an inplace operation"
  | .wrongNumGradOutputs => "incorrect number of gradOutputs"
  | .modifiedInplace =>
    "one of the variables needed for gradient computation has been modified by an inplace operation"
  | .tensorLibrary => "tensor library error"
  | .undefinedBehaviour => "undefined behaviour"

/-- Outcome of a call: the value returned or the exception thrown. -/
inductive Outcome (α : Type) where
  | ok (a : α)
  | throw (e : Error)
  deriving DecidableEq, Repr

/-- Modelled from the spec: `thpp::Tensor` (the tensor library is an external
collaborator, its header is not part of the source).  A tensor is a descriptor
pointing at a storage; several descriptors may share one storage. -/
structure Tensor where
  storage : Nat
  deriving DecidableEq, Repr

/-- Modelled from the spec: the graph node `Function` (declared in a header
outside the source), reduced to what `variable.cpp` reads and writes: the
incrementable output counter and the two flags. -/
structure Function where
  num_outputs : Nat
  is_volatile : Bool
  requires_grad : Bool
  deriving DecidableEq, Repr

/-- Modelled from the spec: `VariableVersion` (VersionCounter, spec 4.1; the
class is declared in a header outside the source).  A handle on a shared counter
cell; `saved_ref` marks the read-only handles minted by `new_saved_ref`. -/
structure VariableVersion where
  cell : Nat
  saved_ref : Bool
  deriving DecidableEq, Repr

/-- The fields of a `Variable` used by `variable.cpp`.  `data` is the
`unique_ptr<Tensor>` (nullable), `creator` and `grad` are nullable shared
pointers, `backward_hook` is a nullable pointer to a hook, given here as the
index of the hook in the hook environment.  `pyobj` is not modelled. -/
structure Variable where
  data : Option Tensor
  creator : Option Nat
  grad : Option Nat
  version_counter : VariableVersion
  output_nr : Nat
  backward_hook : Option Nat
  is_volatile : Bool
  requires_grad : Bool
  previous_functions : List (Nat × Nat)
  deriving DecidableEq, Repr

/-- Modelled from the spec: `SavedVariable` (SavedValue, spec 3 and 4.3; the
struct is declared in a header outside the source): the snapshot data, the version
recorded at save time and the saved reference into the counter. -/
structure SavedVariable where
  data : Option Tensor
  expected_version : Nat
  version : Option VariableVersion
  deriving DecidableEq, Repr

/-- The heap: tensor storages (element lists), version counter cells,
`Function` objects and `Variable` objects. -/
structure Heap where
  storages : List (List Int)
  versions : List Nat
  functions : List Function
  vars : List Variable
  deriving DecidableEq, Repr

/-- Modelled from the spec: a backward hook maps a gradient `Variable` to a
gradient `Variable`; it may allocate its result on the heap.  Hooks are looked
up by index in a hook environment. -/
abbrev HookEnv := Nat → Heap → Nat → Heap × Nat

/-! ## Version counter (modelled from the spec, section 4.1) -/

/-- Modelled from the spec: `VariableVersion()` creates a fresh counter cell
reading 0 and returns the live handle on it. -/
def VariableVersion.new (h : Heap) : Heap × VariableVersion :=
  ({ h with versions := h.versions ++ [0] }, { cell := h.versions.length, saved_ref := false })

/-- Modelled from the spec: `read()` (`operator*`), the current value of the
cell, through a live handle or a saved reference alike. -/
def VariableVersion.read (h : Heap) (vc : VariableVersion) : Option Nat :=
  h.versions[vc.cell]?

/-- Modelled from the spec: `increment()` (`operator++`) advances the live
counter by one; every handle on the cell observes it. -/
def VariableVersion.increment (h : Heap) (vc : VariableVersion) : Heap :=
  match h.versions[vc.cell]? with
  | some n => { h with versions := h.versions.set vc.cell (n + 1) }
  | none => h

/-- Modelled from the spec: `new_saved_ref()` yields a read-only handle that
aliases the same cell. -/
def VariableVersion.new_saved_ref (vc : VariableVersion) : VariableVersion :=
  { cell := vc.cell, saved_ref := true }

/-! ## Tensor library (modelled from the spec, section 6) -/

/-- The elements a tensor descriptor currently shows. -/
def Tensor.elems (h : Heap) (t : Tensor) : Option (List Int) :=
  h.storages[t.storage]?

/-- Modelled from the spec: `clone()` copies the elements into a new storage,
independent of the original. -/
def Tensor.clone (h : Heap) (t : Tensor) : Option (Heap × Tensor) :=
  match h.storages[t.storage]? with
  | some xs => some ({ h with storages := h.storages ++ [xs] }, { storage := h.storages.length })
  | none => none

/-- Modelled from the spec: `clone_shallow()` makes a new descriptor on the
same storage. -/
def Tensor.clone_shallow (t : Tensor) : Tensor :=
  { storage := t.storage }

/-- Modelled from the spec: `self.cadd(src1, src2)` writes the element-wise sum
`src1 + src2` into the storage of `self`.  Addition of tensors of different
shapes is outside the spec and reported as a tensor-library error. -/
def Tensor.cadd (h : Heap) (self src1 src2 : Tensor) : Heap × Outcome Unit :=
  match h.storages[self.storage]?, h.storages[src1.storage]?, h.storages[src2.storage]? with
  | some _, some xs, some ys =>
    if xs.length = ys.length then
      ({ h with storages := h.storages.set self.storage (List.zipWith (· + ·) xs ys) }, .ok ())
    else (h, .throw .tensorLibrary)
  | _, _, _ => (h, .throw .undefinedBehaviour)

/-! ## `Variable` -/

/-- Constructor `Variable::Variable(data, requires_grad, is_volatile)` together with the
allocation of the object: the initialisers create a fresh version counter, the
body throws when `data` is null (the members built so far, the counter included,
are then destroyed and no object exists), otherwise the flags are stored. -/
def Variable.Variable_flags (h : Heap) (data : Option Tensor)
    (requires_grad is_volatile : Bool) : Heap × Outcome Nat :=
  let (h1, vc) := VariableVersion.new h
  match data with
  | none => (h, .throw .dataIsNull)
  | some t =>
    let self : Variable :=
      { data := some t, creator := none, grad := none, version_counter := vc,
        output_nr := 0, backward_hook := none,
        is_volatile := is_volatile, requires_grad := requires_grad,
        previous_functions := [] }
    ({ h1 with vars := h1.vars ++ [self] }, .ok h1.vars.length)

/-- Constructor `Variable::Variable(data, creator)` together with the allocation of the
object.  The initialiser `output_nr(creator->num_outputs++)` runs before the
body, so the creator's counter is advanced also when the body throws. -/
def Variable.Variable_creator (h : Heap) (data : Option Tensor) (creator : Nat) :
    Heap × Outcome Nat :=
  match h.functions[creator]? with
  | none => (h, .throw .undefinedBehaviour)
  | some f =>
    let output_nr := f.num_outputs
    let h0 : Heap :=
      { h with functions := h.functions.set creator { f with num_outputs := f.num_outputs + 1 } }
    let (h1, vc) := VariableVersion.new h0
    match data with
    | none => (h0, .throw .dataIsNull)
    | some t =>
      let self : Variable :=
        { data := some t, creator := some creator, grad := none, version_counter := vc,
          output_nr := output_nr, backward_hook := none,
          is_volatile := f.is_volatile, requires_grad := f.requires_grad,
          previous_functions := [(creator, output_nr)] }
      ({ h1 with vars := h1.vars ++ [self] }, .ok h1.vars.length)

/-- Assignment `self->grad = p`. -/
def Heap.setGrad (h : Heap) (self p : Nat) : Heap :=
  match h.vars[self]? with
  | some v => { h with vars := h.vars.set self { v with grad := some p } }
  | none => h

/-- Method `Variable::backward(gradOutput)`: the hook, if any, replaces the
gradient; the first gradient is cloned into a new `Variable` stored as `grad`,
later ones are added in place to the data of `grad`. -/
def Variable.backward (hooks : HookEnv) (h : Heap) (self gradOutput : Nat) : Heap × Outcome Unit :=
  match h.vars[self]? with
  | none => (h, .throw .undefinedBehaviour)
  | some v =>
    -- if (backward_hook) gradOutput = (*backward_hook)(gradOutput);
    let (h1, gradOutput) :=
      match v.backward_hook with
      | some k => hooks k h gradOutput
      | none => (h, gradOutput)
    match h1.vars[self]?, h1.vars[gradOutput]? with
    | some v1, some go =>
      match go.data with
      | none => (h1, .throw .undefinedBehaviour)
      | some gdata =>
        match v1.grad with
        | none =>
          -- data = gradOutput->data->clone(); grad = make_shared<Variable>(data, false, true)
          match Tensor.clone h1 gdata with
          | none => (h1, .throw .undefinedBehaviour)
          | some (h2, data) =>
            match Variable.Variable_flags h2 (some data) false true with
            | (h3, .ok p) => (h3.setGrad self p, .ok ())
            | (h3, .throw e) => (h3, .throw e)
        | some p =>
          -- grad->data->cadd(*grad->data, *gradOutput->data)
          match h1.vars[p]? with
          | none => (h1, .throw .undefinedBehaviour)
          | some g =>
            match g.data with
            | none => (h1, .throw .undefinedBehaviour)
            | some d => Tensor.cadd h1 d d gdata
    | _, _ => (h1, .throw .undefinedBehaviour)

/-- Method `Variable::apply(gradOutputs)`; the returned `variable_list` is a list of
`Variable` pointers. -/
def Variable.apply (hooks : HookEnv) (h : Heap) (self : Nat) (gradOutputs : List Nat) :
    Heap × Outcome (List Nat) :=
  match h.vars[self]? with
  | none => (h, .throw .undefinedBehaviour)
  | some v =>
    -- if (creator || **version_counter != 0)
    if v.creator.isSome then (h, .throw .leafInplace)
    else
      match VariableVersion.read h v.version_counter with
      | none => (h, .throw .undefinedBehaviour)
      | some n =>
        if n ≠ 0 then (h, .throw .leafInplace)
        else if gradOutputs.length ≠ 1 then (h, .throw .wrongNumGradOutputs)
        else
          -- backward(gradOutputs[0])
          match gradOutputs[0]? with
          | none => (h, .throw .undefinedBehaviour)
          | some g =>
            match Variable.backward hooks h self g with
            | (h1, .ok _) => (h1, .ok [])
            | (h1, .throw e) => (h1, .throw e)

/-- Method `Variable::save()`: a shallow clone of the data, the current reading of the
version counter and a new saved reference on the counter.  The heap is not
changed. -/
def Variable.save (h : Heap) (self : Nat) : Outcome SavedVariable :=
  match h.vars[self]? with
  | none => .throw .undefinedBehaviour
  | some v =>
    match v.data, VariableVersion.read h v.version_counter with
    | some t, some n =>
      .ok { data := some (Tensor.clone_shallow t), expected_version := n,
            version := some (VariableVersion.new_saved_ref v.version_counter) }
    | _, _ => .throw .undefinedBehaviour

/-- Modelled from the spec: the default-constructed `SavedVariable()` (its
constructor is in a header outside the source) holds no data; its recorded version
and reference are never read. -/
def SavedVariable.empty : SavedVariable :=
  { data := none, expected_version := 0, version := none }

/-- Static method `Variable::save_opt(var)`, `var` a nullable raw pointer. -/
def Variable.save_opt (h : Heap) (var : Option Nat) : Outcome SavedVariable :=
  match var with
  | some p => Variable.save h p
  | none => .ok SavedVariable.empty

/-- Method `SavedVariable::unpack()`; the reference to `data` it returns is given as
the (nullable) descriptor. -/
def SavedVariable.unpack (h : Heap) (s : SavedVariable) : Outcome (Option Tensor) :=
  match s.data with
  | some t =>
    match s.version with
    | none => .throw .undefinedBehaviour
    | some vr =>
      match VariableVersion.read h vr with
      | none => .throw .undefinedBehaviour
      | some current_version =>
        if s.expected_version ≠ current_version then .throw .modifiedInplace
        else .ok (some t)
  | none => .ok none

/-! ## Scenarios: sequences of calls -/

/-- Scenario: `Variable::backward` called on `self` once for each gradient of the list,
in order; stops at the first call that throws. -/
def backwardAll (hooks : HookEnv) (h : Heap) (self : Nat) : List Nat → Heap × Outcome Unit
  | [] => (h, .ok ())
  | g :: gs =>
    match Variable.backward hooks h self g with
    | (h1, .ok _) => backwardAll hooks h1 self gs
    | (h1, .throw e) => (h1, .throw e)

/-- The internal constructor called once for each data argument of the list,
in order, all with the same creator; every call's outcome is recorded. -/
def constructOutputs (h : Heap) (creator : Nat) : List (Option Tensor) → Heap × List (Outcome Nat)
  | [] => (h, [])
  | d :: ds =>
    let r := Variable.Variable_creator h d creator
    let rest := constructOutputs r.1 creator ds
    (rest.1, r.2 :: rest.2)

/-- The elements shown by the data of the `Variable` at `p`. -/
def Heap.dataElems (h : Heap) (p : Nat) : Option (List Int) :=
  match h.vars[p]? with
  | some v =>
    match v.data with
    | some t => Tensor.elems h t
    | none => none
  | none => none

/-- The `Variable` that `grad` of the `Variable` at `p` points to. -/
def Heap.gradOf (h : Heap) (p : Nat) : Option Nat :=
  match h.vars[p]? with
  | some v => v.grad
  | none => none

/-- Element-wise sum of a list of tensors of `n` elements each. -/
def elementwiseSum (n : Nat) (gs : List (List Int)) : List Int :=
  (List.range n).map (fun i => (gs.map (fun g => g.getD i 0)).sum)

/-- Lines 57-59 of `Variable::backward`: the heap and the gradient the method
goes on with once the hook of `v`, if any, has been called on `gradOutput`. -/
def Variable.hooked (hooks : HookEnv) (h : Heap) (v : Variable) (gradOutput : Nat) : Heap × Nat :=
  match v.backward_hook with
  | some k => hooks k h gradOutput
  | none => (h, gradOutput)

/-- Lines 63-68 of `Variable::backward`: the accumulation proper, on the heap
and the gradient left by the hook. -/
def Variable.accumulate (h1 : Heap) (self gradOutput : Nat) : Heap × Outcome Unit :=
  match h1.vars[self]?, h1.vars[gradOutput]? with
  | some v1, some go =>
    match go.data with
    | none => (h1, .throw .undefinedBehaviour)
    | some gdata =>
      match v1.grad with
      | none =>
        match Tensor.clone h1 gdata with
        | none => (h1, .throw .undefinedBehaviour)
        | some (h2, data) =>
          match Variable.Variable_flags h2 (some data) false true with
          | (h3, .ok p) => (h3.setGrad self p, .ok ())
          | (h3, .throw e) => (h3, .throw e)
      | some p =>
        match h1.vars[p]? with
        | none => (h1, .throw .undefinedBehaviour)
        | some g =>
          match g.data with
          | none => (h1, .throw .undefinedBehaviour)
          | some d => Tensor.cadd h1 d d gdata
  | _, _ => (h1, .throw .undefinedBehaviour)

/-- Modelled from the spec: hooks are pure (spec 4.2 step 1 and 6); on the heap
this means that a hook leaves every object that exists as it is and may only
allocate new ones. -/
def HooksAllocateOnly (hooks : HookEnv) : Prop :=
  ∀ k h g, (∃ vs, (hooks k h g).1.vars = h.vars ++ vs) ∧
    (∃ ss, (hooks k h g).1.storages = h.storages ++ ss) ∧
    (∃ ws, (hooks k h g).1.versions = h.versions ++ ws)

/-- Modelled from the spec: the hook `k` is a transformation of gradient values;
called on a gradient holding `xs` it returns a gradient holding `φ xs`. -/
def HookComputes (hooks : HookEnv) (k : Nat) (φ : List Int → List Int) : Prop :=
  ∀ h g xs, h.dataElems g = some xs → (hooks k h g).1.dataElems (hooks k h g).2 = some (φ xs)

/-- Scenario: `apply([g])` called on `self` once for each gradient of the list,
in order; stops at the first call that throws. -/
def applyAll (hooks : HookEnv) (h : Heap) (self : Nat) : List Nat → Heap × Outcome Unit
  | [] => (h, .ok ())
  | g :: gs =>
    match Variable.apply hooks h self [g] with
    | (h1, .ok _) => applyAll hooks h1 self gs
    | (h1, .throw e) => (h1, .throw e)

/-! ## Concrete heaps used to exercise the theorems -/

/-- Three storages of two elements each, one `Function` with output counter 0,
no `Variable` yet. -/
def exampleBase : Heap :=
  { storages := [[1, 2], [10, 20], [100, 200]], versions := [],
    functions := [{ num_outputs := 0, is_volatile := false, requires_grad := true }],
    vars := [] }

/-- A leaf built by the leaf constructor on storage 0; it is the `Variable` 0. -/
def exampleLeaf : Heap :=
  (Variable.Variable_flags exampleBase (some ⟨0⟩) true false).1

/-- The leaf 0 and two gradient `Variable`s 1 and 2 on storages 1 and 2. -/
def exampleGrads : Heap :=
  (Variable.Variable_flags (Variable.Variable_flags exampleLeaf (some ⟨1⟩) false true).1
    (some ⟨2⟩) false true).1

/-- An internal `Variable` built from the `Function` 0 on storage 0; it is the
`Variable` 0. -/
def exampleInternal : Heap :=
  (Variable.Variable_creator exampleBase (some ⟨0⟩) 0).1

/-- A hook environment in which every hook returns its argument. -/
def exampleHooks : HookEnv := fun _ h g => (h, g)

/-- The example heap after `backward` of the gradient 1 on the leaf 0: the leaf
has a `grad`, the `Variable` 3, on the new storage 3. -/
def exampleAccumulated : Heap :=
  (Variable.backward exampleHooks exampleGrads 0 1).1

/-- A hook environment in which every hook doubles the gradient: it allocates
a storage holding twice the elements and a new `Variable` on it. -/
def doublingHooks : HookEnv := fun _ h g =>
  match h.dataElems g with
  | some xs =>
    ({ h with storages := h.storages ++ [xs.map (fun x => 2 * x)],
              versions := h.versions ++ [0],
              vars := h.vars ++
                [{ data := some ⟨h.storages.length⟩, creator := none, grad := none,
                   version_counter := { cell := h.versions.length, saved_ref := false },
                   output_nr := 0, backward_hook := none, is_volatile := true,
                   requires_grad := false, previous_functions := [] }] },
      h.vars.length)
  | none => (h, g)

/-- The leaf 0 built with the hook 0 registered, and the gradients 1 and 2. -/
def exampleHooked : Heap :=
  { exampleGrads with
    vars := exampleGrads.vars.set 0
      { data := some ⟨0⟩, creator := none, grad := none, version_counter := ⟨0, false⟩,
        output_nr := 0, backward_hook := some 0, is_volatile := false, requires_grad := true,
        previous_functions := [] } }

/-! ## Theorems -/

/-- C3: after `s = v.save()`, one increment of the counter of `v` makes
`s.unpack()` throw the in-place-modification error; the saved reference of `s`
reads the same cell as the counter of `v` in every heap; and `unpack` on any
`SavedVariable` holding data throws that error exactly when the version read
through its reference differs from the recorded one. -/
theorem unpack_detects_increment (h : Heap) (self : Nat) (v : Variable) (t : Tensor) (n : Nat)
    (hv : h.vars[self]? = some v) (hd : v.data = some t)
    (hn : VariableVersion.read h v.version_counter = some n) :
    (∃ s vr, Variable.save h self = .ok s ∧ s.version = some vr ∧
      (∀ h' : Heap, VariableVersion.read h' vr = VariableVersion.read h' v.version_counter) ∧
      SavedVariable.unpack (VariableVersion.increment h v.version_counter) s
        = .throw .modifiedInplace) ∧
    (∀ (h' : Heap) (s : SavedVariable) (vr : VariableVersion) (current_version : Nat),
      s.data.isSome → s.version = some vr →
      VariableVersion.read h' vr = some current_version →
      (SavedVariable.unpack h' s = .throw .modifiedInplace ↔
        current_version ≠ s.expected_version)) := by
  constructor
  · refine ⟨_, VariableVersion.new_saved_ref v.version_counter,
      by simp [Variable.save, hv, hd, hn]; rfl, rfl, fun _ => rfl, ?_⟩
    have hn' : h.versions[v.version_counter.cell]? = some n := hn
    have hlt : v.version_counter.cell < h.versions.length := by
      rcases List.getElem?_eq_some_iff.mp hn' with ⟨hlt, _⟩
      exact hlt
    simp [SavedVariable.unpack, VariableVersion.read, VariableVersion.increment,
      VariableVersion.new_saved_ref, hn', hlt]
  · intro h' s vr cur hdata hvr hcur
    cases hsd : s.data with
    | none => simp [hsd] at hdata
    | some t' =>
      by_cases hne : s.expected_version = cur
      · simp [SavedVariable.unpack, hsd, hvr, hcur, hne]
      · simp [SavedVariable.unpack, hsd, hvr, hcur, hne]
        exact fun hh => hne hh.symm

/-- Witness for C3: the constructed leaf, saved, incremented once, unpacked. -/
theorem unpack_detects_increment_witness :
    (∃ s vr, Variable.save exampleLeaf 0 = .ok s ∧ s.version = some vr ∧
      (∀ h' : Heap, VariableVersion.read h' vr = VariableVersion.read h' ⟨0, false⟩) ∧
      SavedVariable.unpack (VariableVersion.increment exampleLeaf ⟨0, false⟩) s
        = .throw .modifiedInplace) ∧
    (∀ (h' : Heap) (s : SavedVariable) (vr : VariableVersion) (current_version : Nat),
      s.data.isSome → s.version = some vr →
      VariableVersion.read h' vr = some current_version →
      (SavedVariable.unpack h' s = .throw .modifiedInplace ↔
        current_version ≠ s.expected_version)) :=
  unpack_detects_increment exampleLeaf 0
    ⟨some ⟨0⟩, none, none, ⟨0, false⟩, 0, none, false, true, []⟩ ⟨0⟩ 0 rfl rfl rfl

/-! ### Helper lemmas on the version counter -/

/-- C5: on a `Variable` that has a creator, `apply` throws "leaf variable was
used in an inplace operation" for every gradient list, whatever its length, and
leaves the heap as it was. -/
theorem apply_with_creator_throws (hooks : HookEnv) (h : Heap) (self : Nat) (v : Variable)
    (creator : Nat) (gradOutputs : List Nat)
    (hv : h.vars[self]? = some v) (hc : v.creator = some creator) :
    Variable.apply hooks h self gradOutputs = (h, .throw .leafInplace) := by
  simp [Variable.apply, hv, hc]

/-- Witness for C5: a `Variable` built by the internal constructor, given no
gradient at all. -/
theorem apply_with_creator_throws_witness :
    Variable.apply exampleHooks exampleInternal 0 [] = (exampleInternal, .throw .leafInplace) :=
  apply_with_creator_throws exampleHooks exampleInternal 0
    ⟨some ⟨0⟩, some 0, none, ⟨0, false⟩, 0, none, false, true, [(0, 0)]⟩ 0 [] rfl rfl

/-- C7: on a true leaf (no creator, version counter reading 0), `apply` given a
gradient list of length 0 or at least 2 throws "incorrect number of
gradOutputs" and leaves the heap as it was. -/
theorem apply_wrong_arity_throws (hooks : HookEnv) (h : Heap) (self : Nat) (v : Variable)
    (gradOutputs : List Nat)
    (hv : h.vars[self]? = some v) (hc : v.creator = none)
    (hn : VariableVersion.read h v.version_counter = some 0)
    (hlen : gradOutputs.length = 0 ∨ 2 ≤ gradOutputs.length) :
    Variable.apply hooks h self gradOutputs = (h, .throw .wrongNumGradOutputs) := by
  have hne : gradOutputs.length ≠ 1 := by omega
  simp [Variable.apply, hv, hc, hn, hne]

/-- Witness for C7: the constructed leaf given two gradients. -/
theorem apply_wrong_arity_throws_witness :
    Variable.apply exampleHooks exampleGrads 0 [1, 2]
      = (exampleGrads, .throw .wrongNumGradOutputs) :=
  apply_wrong_arity_throws exampleHooks exampleGrads 0
    ⟨some ⟨0⟩, none, none, ⟨0, false⟩, 0, none, false, true, []⟩ [1, 2] rfl rfl rfl
    (Or.inr (Nat.le_refl 2))

/-- C8: `save_opt(null)` returns the empty `SavedVariable`, which holds no data
and whose `unpack()` returns no data without throwing in every heap; and
`save_opt(v)` for a present `v` is `v.save()`. -/
theorem save_opt_spec :
    (∀ h : Heap, Variable.save_opt h none = .ok SavedVariable.empty) ∧
    SavedVariable.empty.data = none ∧
    (∀ h' : Heap, SavedVariable.unpack h' SavedVariable.empty = .ok none) ∧
    (∀ (h : Heap) (p : Nat), Variable.save_opt h (some p) = Variable.save h p) :=
  ⟨fun _ => rfl, rfl, fun _ => rfl, fun _ _ => rfl⟩

/-! ### The constructors in closed form -/

theorem Variable_flags_some (h : Heap) (t : Tensor) (requires_grad is_volatile : Bool) :
    Variable.Variable_flags h (some t) requires_grad is_volatile =
      ({ storages := h.storages, versions := h.versions ++ [0], functions := h.functions,
         vars := h.vars ++
           [{ data := some t, creator := none, grad := none,
              version_counter := { cell := h.versions.length, saved_ref := false },
              output_nr := 0, backward_hook := none, is_volatile := is_volatile,
              requires_grad := requires_grad, previous_functions := [] }] },
       .ok h.vars.length) := rfl

theorem Variable_creator_none (h : Heap) (creator : Nat) (f : Function)
    (hf : h.functions[creator]? = some f) :
    Variable.Variable_creator h none creator =
      ({ storages := h.storages, versions := h.versions,
         functions := h.functions.set creator { f with num_outputs := f.num_outputs + 1 },
         vars := h.vars },
       .throw .dataIsNull) := by
  simp [Variable.Variable_creator, hf]

theorem Variable_creator_some (h : Heap) (t : Tensor) (creator : Nat) (f : Function)
    (hf : h.functions[creator]? = some f) :
    Variable.Variable_creator h (some t) creator =
      ({ storages := h.storages, versions := h.versions ++ [0],
         functions := h.functions.set creator { f with num_outputs := f.num_outputs + 1 },
         vars := h.vars ++
           [{ data := some t, creator := some creator, grad := none,
              version_counter := { cell := h.versions.length, saved_ref := false },
              output_nr := f.num_outputs, backward_hook := none, is_volatile := f.is_volatile,
              requires_grad := f.requires_grad,
              previous_functions := [(creator, f.num_outputs)] }] },
       .ok h.vars.length) := by
  simp [Variable.Variable_creator, hf, VariableVersion.new]

/-- C10: with absent data both constructors throw "Variable data is NULL" and
add no `Variable` to the heap, whatever the flags and whichever (allocated)
creator; with data present both return a new `Variable` holding that data. -/
theorem constructors_null_data (h : Heap) (t : Tensor) (requires_grad is_volatile : Bool)
    (creator : Nat) (f : Function) (hf : h.functions[creator]? = some f) :
    Variable.Variable_flags h none requires_grad is_volatile = (h, .throw .dataIsNull) ∧
    (∃ h', Variable.Variable_creator h none creator = (h', .throw .dataIsNull) ∧
      h'.vars = h.vars) ∧
    (∃ h' p v, Variable.Variable_flags h (some t) requires_grad is_volatile = (h', .ok p) ∧
      h.vars[p]? = none ∧ h'.vars[p]? = some v ∧ v.data = some t) ∧
    (∃ h' p v, Variable.Variable_creator h (some t) creator = (h', .ok p) ∧
      h.vars[p]? = none ∧ h'.vars[p]? = some v ∧ v.data = some t) := by
  refine ⟨rfl, ⟨_, Variable_creator_none h creator f hf, rfl⟩, ?_, ?_⟩
  · exact ⟨_, _, _, Variable_flags_some h t requires_grad is_volatile, by simp,
      List.getElem?_concat_length _ _, rfl⟩
  · exact ⟨_, _, _, Variable_creator_some h t creator f hf, by simp,
      List.getElem?_concat_length _ _, rfl⟩

/-- Witness for C10: both constructors on the example heap and its `Function` 0. -/
theorem constructors_null_data_witness :
    Variable.Variable_flags exampleBase none true false = (exampleBase, .throw .dataIsNull) ∧
    (∃ h', Variable.Variable_creator exampleBase none 0 = (h', .throw .dataIsNull) ∧
      h'.vars = exampleBase.vars) ∧
    (∃ h' p v, Variable.Variable_flags exampleBase (some ⟨0⟩) true false = (h', .ok p) ∧
      exampleBase.vars[p]? = none ∧ h'.vars[p]? = some v ∧ v.data = some ⟨0⟩) ∧
    (∃ h' p v, Variable.Variable_creator exampleBase (some ⟨0⟩) 0 = (h', .ok p) ∧
      exampleBase.vars[p]? = none ∧ h'.vars[p]? = some v ∧ v.data = some ⟨0⟩) :=
  constructors_null_data exampleBase ⟨0⟩ true false 0 ⟨0, false, true⟩ rfl

/-! ### Successive outputs of one creator -/

theorem Variable_creator_step (h : Heap) (t : Tensor) (creator : Nat) (f : Function)
    (hf : h.functions[creator]? = some f) :
    ∃ h1 v, Variable.Variable_creator h (some t) creator = (h1, .ok h.vars.length) ∧
      h1.functions[creator]? = some { f with num_outputs := f.num_outputs + 1 } ∧
      h1.vars = h.vars ++ [v] ∧ v.output_nr = f.num_outputs := by
  have hlt : creator < h.functions.length := (List.getElem?_eq_some_iff.mp hf).1
  exact ⟨_, _, Variable_creator_some h t creator f hf, by simp [hlt], rfl, rfl⟩

theorem constructOutputs_some (ts : List Tensor) (h : Heap) (creator : Nat) (f : Function)
    (hf : h.functions[creator]? = some f) :
    (constructOutputs h creator (ts.map some)).2
        = (List.range' h.vars.length ts.length).map Outcome.ok ∧
    (∀ i, i < ts.length →
      ((constructOutputs h creator (ts.map some)).1.vars[h.vars.length + i]?).map
        Variable.output_nr = some (f.num_outputs + i)) ∧
    ((constructOutputs h creator (ts.map some)).1.functions[creator]?).map Function.num_outputs
        = some (f.num_outputs + ts.length) ∧
    (∀ p, p < h.vars.length →
      (constructOutputs h creator (ts.map some)).1.vars[p]? = h.vars[p]?) := by
  induction ts generalizing h f with
  | nil => simp [constructOutputs, hf]
  | cons t ts ih =>
    obtain ⟨h1, v, hres, hfun, hvars, hnr⟩ := Variable_creator_step h t creator f hf
    obtain ⟨ih1, ih2, ih3, ih4⟩ := ih h1 _ hfun
    have hlen : h1.vars.length = h.vars.length + 1 := by simp [hvars]
    rw [hlen] at ih1 ih2 ih4
    simp only [List.map_cons, constructOutputs, List.length_cons, hres]
    refine ⟨?_, ?_, ?_, ?_⟩
    · rw [ih1, List.range'_succ]; rfl
    · intro i hi
      cases i with
      | zero =>
        rw [Nat.add_zero, Nat.add_zero, ih4 h.vars.length (Nat.lt_succ_self _), hvars]
        simp [hnr]
      | succ i =>
        have := ih2 i (by omega)
        rw [show h.vars.length + (i + 1) = h.vars.length + 1 + i by omega,
          show f.num_outputs + (i + 1) = f.num_outputs + 1 + i by omega]
        exact this
    · rw [ih3]; simp; omega
    · intro p hp
      rw [ih4 p (by omega), hvars]
      exact List.getElem?_append_left hp

/-- C9: `n` internal `Variable`s (data present) constructed in sequence from a
creator whose output counter is 0 all succeed, the `i`-th constructed one has
`output_nr = i` (0, 1, ..., n-1 in construction order), and the creator's
`num_outputs` ends at `n`. -/
theorem output_nr_sequence (h : Heap) (creator : Nat) (f : Function) (ts : List Tensor)
    (hf : h.functions[creator]? = some f) (h0 : f.num_outputs = 0) :
    ∃ ps : List Nat,
      (constructOutputs h creator (ts.map some)).2 = ps.map Outcome.ok ∧
      ps.length = ts.length ∧
      (∀ i, i < ts.length → ∃ p v, ps[i]? = some p ∧
        (constructOutputs h creator (ts.map some)).1.vars[p]? = some v ∧ v.output_nr = i) ∧
      (∃ f', (constructOutputs h creator (ts.map some)).1.functions[creator]? = some f' ∧
        f'.num_outputs = ts.length) := by
  obtain ⟨h1, h2, h3, _⟩ := constructOutputs_some ts h creator f hf
  refine ⟨List.range' h.vars.length ts.length, h1, by simp, ?_, ?_⟩
  · intro i hi
    have := h2 i hi
    rw [h0, Nat.zero_add] at this
    obtain ⟨v, hv, hnr⟩ := Option.map_eq_some'.mp this
    exact ⟨h.vars.length + i, v, by simp [List.getElem?_range', hi], hv, hnr⟩
  · rw [h0, Nat.zero_add] at h3
    obtain ⟨f', hf', hn⟩ := Option.map_eq_some'.mp h3
    exact ⟨f', hf', hn⟩

/-- Witness for C9: two outputs of the `Function` 0 of the example heap get
indices 0 and 1 and the counter ends at 2. -/
theorem output_nr_sequence_witness :
    ∃ ps : List Nat,
      (constructOutputs exampleBase 0 ([⟨0⟩, ⟨1⟩].map some)).2 = ps.map Outcome.ok ∧
      ps.length = 2 ∧
      (∀ i, i < 2 → ∃ p v, ps[i]? = some p ∧
        (constructOutputs exampleBase 0 ([⟨0⟩, ⟨1⟩].map some)).1.vars[p]? = some v ∧
        v.output_nr = i) ∧
      (∃ f', (constructOutputs exampleBase 0 ([⟨0⟩, ⟨1⟩].map some)).1.functions[0]? = some f' ∧
        f'.num_outputs = 2) :=
  output_nr_sequence exampleBase 0 ⟨0, false, true⟩ [⟨0⟩, ⟨1⟩] rfl rfl

/-! ### `backward` without a hook, in closed form -/

theorem backward_first (hooks : HookEnv) (h : Heap) (self g : Nat) (v gv : Variable)
    (t : Tensor) (xs : List Int)
    (hv : h.vars[self]? = some v) (hhook : v.backward_hook = none) (hgrad : v.grad = none)
    (hgv : h.vars[g]? = some gv) (hd : gv.data = some t)
    (hxs : h.storages[t.storage]? = some xs) :
    Variable.backward hooks h self g =
      ({ storages := h.storages ++ [xs], versions := h.versions ++ [0],
         functions := h.functions,
         vars := (h.vars ++
           [({ data := some ⟨h.storages.length⟩, creator := none, grad := none,
               version_counter := { cell := h.versions.length, saved_ref := false },
               output_nr := 0, backward_hook := none, is_volatile := true,
               requires_grad := false, previous_functions := [] } : Variable)]).set self
           { v with grad := some h.vars.length } },
       .ok ()) := by
  have hlt : self < h.vars.length := (List.getElem?_eq_some_iff.mp hv).1
  simp [Variable.backward, hv, hhook, hgrad, hgv, hd, hxs, Tensor.clone, Variable_flags_some,
    Heap.setGrad, List.getElem?_append_left hlt]

theorem backward_accumulate (hooks : HookEnv) (h : Heap) (self g p : Nat)
    (v gv gradv : Variable) (t d : Tensor) (xs acc : List Int)
    (hv : h.vars[self]? = some v) (hhook : v.backward_hook = none) (hgrad : v.grad = some p)
    (hp : h.vars[p]? = some gradv) (hpd : gradv.data = some d)
    (hacc : h.storages[d.storage]? = some acc)
    (hgv : h.vars[g]? = some gv) (hd : gv.data = some t)
    (hxs : h.storages[t.storage]? = some xs) (hlen : acc.length = xs.length) :
    Variable.backward hooks h self g =
      ({ h with storages := h.storages.set d.storage (List.zipWith (· + ·) acc xs) },
       .ok ()) := by
  simp [Variable.backward, hv, hhook, hgrad, hgv, hd, hxs, hp, hpd, hacc, Tensor.cadd, hlen]

theorem dataElems_eq_some (h : Heap) (p : Nat) (xs : List Int) :
    h.dataElems p = some xs ↔
      ∃ v t, h.vars[p]? = some v ∧ v.data = some t ∧ h.storages[t.storage]? = some xs := by
  unfold Heap.dataElems
  cases hv : h.vars[p]? with
  | none => simp
  | some v =>
    cases hd : v.data with
    | none => simp [hd]
    | some t => simp [hd, Tensor.elems]

theorem backward_ok (hooks : HookEnv) (h : Heap) (self g : Nat) (v : Variable) (xs : List Int)
    (hv : h.vars[self]? = some v) (hhook : v.backward_hook = none)
    (hg : h.dataElems g = some xs)
    (hshape : ∀ p, v.grad = some p → ∃ acc, h.dataElems p = some acc ∧ acc.length = xs.length) :
    ∃ h1, Variable.backward hooks h self g = (h1, .ok ()) := by
  obtain ⟨gv, t, hgv, hd, hxs⟩ := (dataElems_eq_some h g xs).mp hg
  cases hgrad : v.grad with
  | none => exact ⟨_, backward_first hooks h self g v gv t xs hv hhook hgrad hgv hd hxs⟩
  | some p =>
    obtain ⟨acc, hacc, hlen⟩ := hshape p hgrad
    obtain ⟨gradv, d, hp, hpd, hs⟩ := (dataElems_eq_some h p acc).mp hacc
    exact ⟨_, backward_accumulate hooks h self g p v gv gradv t d xs acc hv hhook hgrad hp hpd hs
      hgv hd hxs hlen⟩

/-- C4: on a `Variable` with no creator and version counter reading 0,
`apply([g])` does exactly what `backward(g)` does: it leaves the heap that
`backward(g)` leaves, returns the empty list when `backward(g)` returns and
throws what `backward(g)` throws; and when no hook is set, `g` holds data and
an already present `grad` has the shape of `g`, `backward(g)` returns, so
`apply([g])` succeeds with the empty list. -/
theorem apply_leaf_delegates (hooks : HookEnv) (h : Heap) (self g : Nat) (v : Variable)
    (hv : h.vars[self]? = some v) (hc : v.creator = none)
    (hn : VariableVersion.read h v.version_counter = some 0) :
    Variable.apply hooks h self [g] =
      ((Variable.backward hooks h self g).1,
        match (Variable.backward hooks h self g).2 with
        | .ok _ => .ok []
        | .throw e => .throw e) ∧
    (v.backward_hook = none →
      ∀ xs, h.dataElems g = some xs →
      (∀ p, v.grad = some p → ∃ acc, h.dataElems p = some acc ∧ acc.length = xs.length) →
      ∃ h1, Variable.backward hooks h self g = (h1, .ok ()) ∧
        Variable.apply hooks h self [g] = (h1, .ok [])) := by
  have hdel : Variable.apply hooks h self [g] =
      ((Variable.backward hooks h self g).1,
        match (Variable.backward hooks h self g).2 with
        | .ok _ => .ok []
        | .throw e => .throw e) := by
    rcases hb : Variable.backward hooks h self g with ⟨h1, r⟩
    cases r <;> simp [Variable.apply, hv, hc, hn, hb]
  refine ⟨hdel, ?_⟩
  intro hhook xs hg hshape
  obtain ⟨h1, hb⟩ := backward_ok hooks h self g v xs hv hhook hg hshape
  exact ⟨h1, hb, by rw [hdel, hb]⟩

/-- Witness for C4: the constructed leaf 0 of the example heap given the
gradient 1, which holds `[10, 20]`; no hook, no `grad` yet. -/
theorem apply_leaf_delegates_witness :
    ∃ h1, Variable.backward exampleHooks exampleGrads 0 1 = (h1, .ok ()) ∧
      Variable.apply exampleHooks exampleGrads 0 [1] = (h1, .ok []) :=
  (apply_leaf_delegates exampleHooks exampleGrads 0 1
    ⟨some ⟨0⟩, none, none, ⟨0, false⟩, 0, none, false, true, []⟩ rfl rfl rfl).2
    rfl [10, 20] rfl (fun _ hp => nomatch hp)

/-! ### Element-wise sums -/

theorem elementwiseSum_singleton (n : Nat) (acc : List Int) (hacc : acc.length = n) :
    elementwiseSum n [acc] = acc := by
  apply List.ext_getElem
  · simp [elementwiseSum, hacc]
  · intro i h1 h2
    simp [elementwiseSum, List.getD_eq_getElem?_getD, List.getElem?_eq_getElem h2]

theorem elementwiseSum_zipWith (n : Nat) (acc xs : List Int) (xss : List (List Int))
    (hacc : acc.length = n) (hxs : xs.length = n) :
    elementwiseSum n (List.zipWith (· + ·) acc xs :: xss)
      = elementwiseSum n (acc :: xs :: xss) := by
  unfold elementwiseSum
  apply List.map_congr_left
  intro i hi
  have hi' : i < n := List.mem_range.mp hi
  have h1 : i < acc.length := by omega
  have h2 : i < xs.length := by omega
  simp [List.getD_eq_getElem?_getD, List.getElem?_eq_getElem h1, List.getElem?_eq_getElem h2,
    List.getElem?_zipWith, Int.add_assoc]

/-! ### Repeated accumulation into an existing `grad` -/

theorem backwardAll_accumulate (hooks : HookEnv) (self P S n : Nat) (gs : List Nat)
    (k : Heap) (w gradv : Variable) (acc : List Int)
    (hself : k.vars[self]? = some w) (hhook : w.backward_hook = none)
    (hgrad : w.grad = some P)
    (hP : k.vars[P]? = some gradv) (hPd : gradv.data = some ⟨S⟩)
    (hacc : k.storages[S]? = some acc) (haccn : acc.length = n)
    (hgs : ∀ g ∈ gs, ∃ gv t xs, k.vars[g]? = some gv ∧ gv.data = some t ∧ t.storage ≠ S ∧
      k.storages[t.storage]? = some xs ∧ xs.length = n) :
    ∃ k', backwardAll hooks k self gs = (k', .ok ()) ∧ k'.vars = k.vars ∧
      k'.storages[S]?
        = some (elementwiseSum n (acc :: gs.map (fun g => (k.dataElems g).getD []))) ∧
      ∀ s, s ≠ S → k'.storages[s]? = k.storages[s]? := by
  induction gs generalizing k acc with
  | nil =>
    exact ⟨k, rfl, rfl, by simp [hacc, elementwiseSum_singleton n acc haccn], fun _ _ => rfl⟩
  | cons g gs ih =>
    obtain ⟨gv, t, xs, hgv, hd, hne, hxs, hxn⟩ := hgs g (List.mem_cons_self _ _)
    have hstep := backward_accumulate hooks k self g P w gv gradv t ⟨S⟩ xs acc hself hhook hgrad
      hP hPd hacc hgv hd hxs (by omega)
    have hS : S < k.storages.length := (List.getElem?_eq_some_iff.mp hacc).1
    have hframe : ∀ s, s ≠ S →
        (k.storages.set S (List.zipWith (· + ·) acc xs))[s]? = k.storages[s]? := by
      intro s hs
      exact List.getElem?_set_ne (Ne.symm hs)
    obtain ⟨k', hk', hvars, hsum, hrest⟩ :=
      ih { k with storages := k.storages.set S (List.zipWith (· + ·) acc xs) }
        (List.zipWith (· + ·) acc xs) hself hP (by simp [hS]) (by simp [haccn, hxn])
        (by
          intro g' hg'
          obtain ⟨gv', t', xs', h1, h2, h3, h4, h5⟩ := hgs g' (List.mem_cons_of_mem _ hg')
          exact ⟨gv', t', xs', h1, h2, h3, by rw [← h4]; exact hframe _ h3, h5⟩)
    refine ⟨k', ?_, hvars, ?_, ?_⟩
    · simp only [backwardAll, hstep]
      exact hk'
    · rw [hsum]
      have hg0 : k.dataElems g = some xs := (dataElems_eq_some k g xs).mpr ⟨gv, t, hgv, hd, hxs⟩
      have hmap : gs.map (fun g =>
            (Heap.dataElems { k with storages := k.storages.set S (List.zipWith (· + ·) acc xs) }
              g).getD [])
          = gs.map (fun g => (k.dataElems g).getD []) := by
        apply List.map_congr_left
        intro g' hg'
        obtain ⟨gv', t', xs', h1, h2, h3, h4, _⟩ := hgs g' (List.mem_cons_of_mem _ hg')
        have e1 : k.dataElems g' = some xs' := (dataElems_eq_some k g' xs').mpr ⟨gv', t', h1, h2, h4⟩
        have e2 : Heap.dataElems
            { k with storages := k.storages.set S (List.zipWith (· + ·) acc xs) } g' = some xs' :=
          (dataElems_eq_some _ g' xs').mpr ⟨gv', t', h1, h2, by rw [← h4]; exact hframe _ h3⟩
        rw [e1, e2]
      rw [hmap, elementwiseSum_zipWith n acc xs _ haccn hxn]
      simp [hg0]
    · intro s hs
      rw [hrest s hs]
      exact hframe s hs

theorem backward_first_frame (hooks : HookEnv) (h : Heap) (self g : Nat) (v : Variable)
    (xs : List Int)
    (hv : h.vars[self]? = some v) (hhook : v.backward_hook = none) (hgrad : v.grad = none)
    (hg : h.dataElems g = some xs) :
    ∃ k w gradv, Variable.backward hooks h self g = (k, .ok ()) ∧
      k.vars[self]? = some w ∧ w.backward_hook = none ∧ w.grad = some h.vars.length ∧
      k.vars[h.vars.length]? = some gradv ∧ gradv.data = some ⟨h.storages.length⟩ ∧
      k.storages[h.storages.length]? = some xs ∧
      ∀ q ys, h.dataElems q = some ys →
        ∃ qv qt, k.vars[q]? = some qv ∧ qv.data = some qt ∧
          qt.storage ≠ h.storages.length ∧ k.storages[qt.storage]? = some ys := by
  obtain ⟨gv, t, hgv, hd, hxs⟩ := (dataElems_eq_some h g xs).mp hg
  have hlt : self < h.vars.length := (List.getElem?_eq_some_iff.mp hv).1
  have hset : ∀ (a b : Variable), ((h.vars ++ [a]).set self b)[self]? = some b := by
    intro a b
    exact List.getElem?_set_self (by simp; omega)
  refine ⟨_, { v with grad := some h.vars.length },
    { data := some ⟨h.storages.length⟩, creator := none, grad := none,
      version_counter := { cell := h.versions.length, saved_ref := false },
      output_nr := 0, backward_hook := none, is_volatile := true,
      requires_grad := false, previous_functions := [] },
    backward_first hooks h self g v gv t xs hv hhook hgrad hgv hd hxs, ?_, hhook, rfl, ?_, rfl,
    ?_, ?_⟩
  · exact hset _ _
  · simp [List.getElem?_set_ne (Nat.ne_of_lt hlt)]
  · simp
  · intro q ys hq
    obtain ⟨qv, qt, hqv, hqd, hqs⟩ := (dataElems_eq_some h q ys).mp hq
    have hqlt : q < h.vars.length := (List.getElem?_eq_some_iff.mp hqv).1
    have hslt : qt.storage < h.storages.length := (List.getElem?_eq_some_iff.mp hqs).1
    have hst : (h.storages ++ [xs])[qt.storage]? = some ys := by
      rw [List.getElem?_append_left hslt]; exact hqs
    by_cases hqs' : q = self
    · subst hqs'
      rw [hv] at hqv
      cases hqv
      exact ⟨{ v with grad := some h.vars.length }, qt, hset _ _, hqd,
        Nat.ne_of_lt hslt, hst⟩
    · refine ⟨qv, qt, ?_, hqd, Nat.ne_of_lt hslt, hst⟩
      simpa [List.getElem?_set_ne (Ne.symm hqs'), List.getElem?_append_left hqlt] using hqv

/-- C1: `backward` called once for each of the gradients `g1..gN` (`N ≥ 1`,
all holding data of `n` elements) on a `Variable` with no `grad` and no hook
returns every time, leaves `grad` set, and the data of `grad` is the
element-wise sum of the data of `g1..gN`; the gradients themselves still hold
the data they held before the calls. -/
theorem backward_accumulates_sum (hooks : HookEnv) (h : Heap) (self : Nat) (v : Variable)
    (gs : List Nat) (n : Nat)
    (hv : h.vars[self]? = some v) (hgrad : v.grad = none) (hhook : v.backward_hook = none)
    (hne : gs ≠ [])
    (hgs : ∀ g ∈ gs, ∃ xs, h.dataElems g = some xs ∧ xs.length = n) :
    ∃ h' p, backwardAll hooks h self gs = (h', .ok ()) ∧ h'.gradOf self = some p ∧
      h'.dataElems p
        = some (elementwiseSum n (gs.map (fun g => (h.dataElems g).getD []))) ∧
      ∀ g ∈ gs, h'.dataElems g = h.dataElems g := by
  cases gs with
  | nil => exact absurd rfl hne
  | cons g rest =>
    obtain ⟨xs, hg, hxn⟩ := hgs g (List.mem_cons_self _ _)
    obtain ⟨k, w, gradv, hstep, kself, khook, kgrad, kP, kPd, kS, kframe⟩ :=
      backward_first_frame hooks h self g v xs hv hhook hgrad hg
    obtain ⟨k', hk', hvars, hsum, hrest⟩ :=
      backwardAll_accumulate hooks self h.vars.length h.storages.length n rest k w gradv xs
        kself khook kgrad kP kPd kS hxn
        (by
          intro g' hg'
          obtain ⟨ys, hys, hyn⟩ := hgs g' (List.mem_cons_of_mem _ hg')
          obtain ⟨qv, qt, h1, h2, h3, h4⟩ := kframe g' ys hys
          exact ⟨qv, qt, ys, h1, h2, h3, h4, hyn⟩)
    have kdata : ∀ q ys, h.dataElems q = some ys → k.dataElems q = some ys := by
      intro q ys hq
      obtain ⟨qv, qt, h1, h2, _, h4⟩ := kframe q ys hq
      exact (dataElems_eq_some k q ys).mpr ⟨qv, qt, h1, h2, h4⟩
    refine ⟨k', h.vars.length, ?_, ?_, ?_, ?_⟩
    · simp only [backwardAll, hstep]
      exact hk'
    · simp [Heap.gradOf, hvars, kself, kgrad]
    · have hmap : rest.map (fun g => (k.dataElems g).getD [])
          = rest.map (fun g => (h.dataElems g).getD []) := by
        apply List.map_congr_left
        intro g' hg'
        obtain ⟨ys, hys, _⟩ := hgs g' (List.mem_cons_of_mem _ hg')
        rw [hys, kdata g' ys hys]
      rw [(dataElems_eq_some k' h.vars.length _).mpr
        ⟨gradv, ⟨h.storages.length⟩, by rw [hvars]; exact kP, kPd, hsum⟩, hmap]
      simp [hg]
    · intro g' hg'
      obtain ⟨ys, hys, _⟩ := hgs g' hg'
      obtain ⟨qv, qt, h1, h2, h3, h4⟩ := kframe g' ys hys
      rw [hys]
      exact (dataElems_eq_some k' g' ys).mpr
        ⟨qv, qt, by rw [hvars]; exact h1, h2, by rw [hrest _ h3]; exact h4⟩

/-- Witness for C1: the constructed leaf 0 of the example heap receives the
gradients 1 and 2, holding `[10, 20]` and `[100, 200]`. -/
theorem backward_accumulates_sum_witness :
    ∃ h' p, backwardAll exampleHooks exampleGrads 0 [1, 2] = (h', .ok ()) ∧
      h'.gradOf 0 = some p ∧
      h'.dataElems p = some [110, 220] ∧
      ∀ g ∈ [1, 2], h'.dataElems g = exampleGrads.dataElems g :=
  backward_accumulates_sum exampleHooks exampleGrads 0
    ⟨some ⟨0⟩, none, none, ⟨0, false⟩, 0, none, false, true, []⟩ [1, 2] 2 rfl rfl rfl
    (by decide) (by decide)

/-! ### What the constructors store -/

/-- C11: for present data and any two flags the leaf constructor returns a new
`Variable` holding that data with no creator, `output_nr` 0, no `grad`, no
backward hook, a version counter on a cell that did not exist before and reads
0, and `requires_grad` and `is_volatile` as given. -/
theorem leaf_constructor_fields (h : Heap) (t : Tensor) (requires_grad is_volatile : Bool) :
    ∃ h' p v, Variable.Variable_flags h (some t) requires_grad is_volatile = (h', .ok p) ∧
      h.vars[p]? = none ∧ h'.vars[p]? = some v ∧
      v.data = some t ∧ v.creator = none ∧ v.output_nr = 0 ∧ v.grad = none ∧
      v.backward_hook = none ∧
      h.versions[v.version_counter.cell]? = none ∧
      VariableVersion.read h' v.version_counter = some 0 ∧
      v.requires_grad = requires_grad ∧ v.is_volatile = is_volatile := by
  refine ⟨_, _, _, Variable_flags_some h t requires_grad is_volatile, by simp,
    List.getElem?_concat_length _ _, rfl, rfl, rfl, rfl, rfl, by simp, ?_, rfl, rfl⟩
  simp [VariableVersion.read]

/-- C12: for present data and an allocated creator the internal constructor
returns a new `Variable` with the flags of the creator, `output_nr` equal to
the creator's `num_outputs` before the call, `previous_functions` equal to
`[(creator, output_nr)]`, a version counter reading 0 and no `grad`; after the
call the creator's `num_outputs` is one higher and its flags are as before. -/
theorem internal_constructor_fields (h : Heap) (t : Tensor) (creator : Nat) (f : Function)
    (hf : h.functions[creator]? = some f) :
    ∃ h' p v f', Variable.Variable_creator h (some t) creator = (h', .ok p) ∧
      h.vars[p]? = none ∧ h'.vars[p]? = some v ∧
      v.data = some t ∧ v.creator = some creator ∧
      v.is_volatile = f.is_volatile ∧ v.requires_grad = f.requires_grad ∧
      v.output_nr = f.num_outputs ∧
      v.previous_functions = [(creator, v.output_nr)] ∧
      VariableVersion.read h' v.version_counter = some 0 ∧ v.grad = none ∧
      h'.functions[creator]? = some f' ∧ f'.num_outputs = f.num_outputs + 1 ∧
      f'.is_volatile = f.is_volatile ∧ f'.requires_grad = f.requires_grad := by
  have hlt : creator < h.functions.length := (List.getElem?_eq_some_iff.mp hf).1
  refine ⟨_, _, _, { f with num_outputs := f.num_outputs + 1 },
    Variable_creator_some h t creator f hf, by simp,
    List.getElem?_concat_length _ _, rfl, rfl, rfl, rfl, rfl, rfl, ?_, rfl, ?_, rfl, rfl, rfl⟩
  · simp [VariableVersion.read]
  · simp [hlt]

/-- Witness for C12: an output of the `Function` 0 of the example heap. -/
theorem internal_constructor_fields_witness :
    ∃ h' p v f', Variable.Variable_creator exampleBase (some ⟨0⟩) 0 = (h', .ok p) ∧
      exampleBase.vars[p]? = none ∧ h'.vars[p]? = some v ∧
      v.data = some ⟨0⟩ ∧ v.creator = some 0 ∧
      v.is_volatile = false ∧ v.requires_grad = true ∧
      v.output_nr = 0 ∧
      v.previous_functions = [(0, v.output_nr)] ∧
      VariableVersion.read h' v.version_counter = some 0 ∧ v.grad = none ∧
      h'.functions[0]? = some f' ∧ f'.num_outputs = 0 + 1 ∧
      f'.is_volatile = false ∧ f'.requires_grad = true :=
  internal_constructor_fields exampleBase ⟨0⟩ 0 ⟨0, false, true⟩ rfl

/-- C19: an internal construction with absent data throws, adds no `Variable`,
and leaves the creator's `num_outputs` one higher; the next `Variable`
constructed from that creator gets `output_nr` one higher than the one it gets
when constructed without the failed attempt. -/
theorem failed_construction_consumes_index (h : Heap) (t : Tensor) (creator : Nat)
    (f : Function) (hf : h.functions[creator]? = some f) :
    ∃ h1 f1, Variable.Variable_creator h none creator = (h1, .throw .dataIsNull) ∧
      h1.vars = h.vars ∧
      h1.functions[creator]? = some f1 ∧ f1.num_outputs = f.num_outputs + 1 ∧
      (∃ h2 p v, Variable.Variable_creator h1 (some t) creator = (h2, .ok p) ∧
        h2.vars[p]? = some v ∧ v.output_nr = f.num_outputs + 1) ∧
      (∃ h2 p v, Variable.Variable_creator h (some t) creator = (h2, .ok p) ∧
        h2.vars[p]? = some v ∧ v.output_nr = f.num_outputs) := by
  have hlt : creator < h.functions.length := (List.getElem?_eq_some_iff.mp hf).1
  refine ⟨_, { f with num_outputs := f.num_outputs + 1 },
    Variable_creator_none h creator f hf, rfl, by simp [hlt], rfl, ?_, ?_⟩
  · exact ⟨_, _, _,
      Variable_creator_some _ t creator { f with num_outputs := f.num_outputs + 1 }
        (by simp [hlt]),
      List.getElem?_concat_length _ _, rfl⟩
  · exact ⟨_, _, _, Variable_creator_some h t creator f hf,
      List.getElem?_concat_length _ _, rfl⟩

/-- Witness for C19: a failed construction from the `Function` 0 of the example
heap, then a successful one, which gets index 1 instead of 0. -/
theorem failed_construction_consumes_index_witness :
    ∃ h1 f1, Variable.Variable_creator exampleBase none 0 = (h1, .throw .dataIsNull) ∧
      h1.vars = exampleBase.vars ∧
      h1.functions[0]? = some f1 ∧ f1.num_outputs = 0 + 1 ∧
      (∃ h2 p v, Variable.Variable_creator h1 (some ⟨0⟩) 0 = (h2, .ok p) ∧
        h2.vars[p]? = some v ∧ v.output_nr = 0 + 1) ∧
      (∃ h2 p v, Variable.Variable_creator exampleBase (some ⟨0⟩) 0 = (h2, .ok p) ∧
        h2.vars[p]? = some v ∧ v.output_nr = 0) :=
  failed_construction_consumes_index exampleBase ⟨0⟩ 0 ⟨0, false, true⟩ rfl

/-! ### Output indices of one creator, failed constructions included -/

/-- C18: when `apply` throws because the `Variable` has a creator, or its
version counter does not read 0, or the gradient list does not have exactly
one element, it throws one of its own two errors and leaves the heap exactly as
it was (so `grad` is neither created nor modified), and no hook is called: the
result is the same in every hook environment. -/
theorem apply_failure_atomic (hooks : HookEnv) (h : Heap) (self : Nat) (v : Variable) (n : Nat)
    (gradOutputs : List Nat)
    (hv : h.vars[self]? = some v)
    (hn : VariableVersion.read h v.version_counter = some n)
    (hcause : v.creator.isSome ∨ n ≠ 0 ∨ gradOutputs.length ≠ 1) :
    (Variable.apply hooks h self gradOutputs = (h, .throw .leafInplace) ∨
      Variable.apply hooks h self gradOutputs = (h, .throw .wrongNumGradOutputs)) ∧
    (∀ hooks' : HookEnv,
      Variable.apply hooks' h self gradOutputs = Variable.apply hooks h self gradOutputs) := by
  have key : ∀ hk : HookEnv,
      Variable.apply hk h self gradOutputs =
        (h, if v.creator.isSome ∨ n ≠ 0 then .throw .leafInplace
            else .throw .wrongNumGradOutputs) := by
    intro hk
    by_cases hc : v.creator.isSome
    · simp [Variable.apply, hv, hc]
    · by_cases h0 : n = 0
      · have hlen : gradOutputs.length ≠ 1 := by
          rcases hcause with h1 | h1 | h1
          · exact absurd h1 hc
          · exact absurd h0 h1
          · exact h1
        simp [Variable.apply, hv, hc, hn, h0, hlen]
      · simp [Variable.apply, hv, hc, hn, h0]
  refine ⟨?_, fun hooks' => by rw [key hooks', key hooks]⟩
  rw [key hooks]
  by_cases hc : v.creator.isSome ∨ n ≠ 0
  · left; simp [hc]
  · right; simp [hc]

/-- Witness for C18: the example leaf with the doubling hook registered, given
two gradients; the heap is unchanged, nothing was allocated by the hook. -/
theorem apply_failure_atomic_witness :
    (Variable.apply doublingHooks exampleHooked 0 [1, 2]
        = (exampleHooked, .throw .leafInplace) ∨
      Variable.apply doublingHooks exampleHooked 0 [1, 2]
        = (exampleHooked, .throw .wrongNumGradOutputs)) ∧
    (∀ hooks' : HookEnv,
      Variable.apply hooks' exampleHooked 0 [1, 2]
        = Variable.apply doublingHooks exampleHooked 0 [1, 2]) :=
  apply_failure_atomic doublingHooks exampleHooked 0
    ⟨some ⟨0⟩, none, none, ⟨0, false⟩, 0, some 0, false, true, []⟩ 0 [1, 2] rfl rfl
    (Or.inr (Or.inr (by decide)))

/-! ### `backward` as hook followed by accumulation -/

theorem backward_eq_accumulate (hooks : HookEnv) (h : Heap) (self g : Nat) (v : Variable)
    (hv : h.vars[self]? = some v) :
    Variable.backward hooks h self g =
      Variable.accumulate (Variable.hooked hooks h v g).1 self (Variable.hooked hooks h v g).2 := by
  unfold Variable.backward
  rw [hv]
  rfl

theorem accumulate_first (h1 : Heap) (self g : Nat) (v1 gv : Variable) (t : Tensor)
    (xs : List Int)
    (hv : h1.vars[self]? = some v1) (hgrad : v1.grad = none)
    (hgv : h1.vars[g]? = some gv) (hd : gv.data = some t)
    (hxs : h1.storages[t.storage]? = some xs) :
    Variable.accumulate h1 self g =
      ({ storages := h1.storages ++ [xs], versions := h1.versions ++ [0],
         functions := h1.functions,
         vars := (h1.vars ++
           [({ data := some ⟨h1.storages.length⟩, creator := none, grad := none,
               version_counter := { cell := h1.versions.length, saved_ref := false },
               output_nr := 0, backward_hook := none, is_volatile := true,
               requires_grad := false, previous_functions := [] } : Variable)]).set self
           { v1 with grad := some h1.vars.length } },
       .ok ()) := by
  have hlt : self < h1.vars.length := (List.getElem?_eq_some_iff.mp hv).1
  simp [Variable.accumulate, hv, hgrad, hgv, hd, hxs, Tensor.clone, Variable_flags_some,
    Heap.setGrad, List.getElem?_append_left hlt]

theorem accumulate_add (h1 : Heap) (self g p : Nat) (v1 gv gradv : Variable) (t d : Tensor)
    (xs acc : List Int)
    (hv : h1.vars[self]? = some v1) (hgrad : v1.grad = some p)
    (hp : h1.vars[p]? = some gradv) (hpd : gradv.data = some d)
    (hacc : h1.storages[d.storage]? = some acc)
    (hgv : h1.vars[g]? = some gv) (hd : gv.data = some t)
    (hxs : h1.storages[t.storage]? = some xs) (hlen : acc.length = xs.length) :
    Variable.accumulate h1 self g =
      ({ h1 with storages := h1.storages.set d.storage (List.zipWith (· + ·) acc xs) },
       .ok ()) := by
  simp [Variable.accumulate, hv, hgrad, hgv, hd, hxs, hp, hpd, hacc, Tensor.cadd, hlen]

/-- C15: when `grad` is absent, `backward(g)` returns and stores as `grad` a
`Variable` that did not exist before, whose data is on a storage that did not
exist before (so not the storage of the gradient) and holds the elements of the
gradient's data, so that writing anything into the gradient's storage afterwards
leaves the elements of `grad` as they are; the new `Variable` has
`requires_grad = false`, `is_volatile = true`, no creator, `output_nr` 0, no
`grad` of its own and a version counter reading 0.  The gradient is the one
left by the hook when one is set, `g` itself otherwise. -/
theorem backward_first_stores_clone (hooks : HookEnv) (h h1 : Heap) (self g g' : Nat)
    (v v1 gv : Variable) (t : Tensor) (xs : List Int)
    (hv : h.vars[self]? = some v) (hr : Variable.hooked hooks h v g = (h1, g'))
    (hv1 : h1.vars[self]? = some v1) (hgrad : v1.grad = none)
    (hgv : h1.vars[g']? = some gv) (hd : gv.data = some t)
    (hxs : h1.storages[t.storage]? = some xs) :
    ∃ h' p gradv d, Variable.backward hooks h self g = (h', .ok ()) ∧
      h'.gradOf self = some p ∧ h1.vars[p]? = none ∧ h'.vars[p]? = some gradv ∧
      gradv.data = some d ∧ h1.storages[d.storage]? = none ∧ d.storage ≠ t.storage ∧
      Tensor.elems h' d = some xs ∧ Tensor.elems h' t = some xs ∧
      (∀ ys, Tensor.elems { h' with storages := h'.storages.set t.storage ys } d = some xs) ∧
      gradv.requires_grad = false ∧ gradv.is_volatile = true ∧ gradv.creator = none ∧
      gradv.output_nr = 0 ∧ gradv.grad = none ∧
      VariableVersion.read h' gradv.version_counter = some 0 := by
  have hlt : self < h1.vars.length := (List.getElem?_eq_some_iff.mp hv1).1
  have hslt : t.storage < h1.storages.length := (List.getElem?_eq_some_iff.mp hxs).1
  have hstep := accumulate_first h1 self g' v1 gv t xs hv1 hgrad hgv hd hxs
  have hb := backward_eq_accumulate hooks h self g v hv
  rw [hr] at hb
  refine ⟨_, h1.vars.length,
    { data := some ⟨h1.storages.length⟩, creator := none, grad := none,
      version_counter := { cell := h1.versions.length, saved_ref := false },
      output_nr := 0, backward_hook := none, is_volatile := true,
      requires_grad := false, previous_functions := [] },
    ⟨h1.storages.length⟩, hb.trans hstep, ?_, by simp, ?_, rfl,
    by simp, Nat.ne_of_gt hslt, ?_, ?_, ?_, rfl, rfl, rfl, rfl, rfl, ?_⟩
  · have : ((h1.vars ++
        [({ data := some ⟨h1.storages.length⟩, creator := none, grad := none,
            version_counter := { cell := h1.versions.length, saved_ref := false },
            output_nr := 0, backward_hook := none, is_volatile := true,
            requires_grad := false, previous_functions := [] } : Variable)]).set self
        { v1 with grad := some h1.vars.length })[self]?
        = some { v1 with grad := some h1.vars.length } :=
      List.getElem?_set_self (by simp; omega)
    simp only [Heap.gradOf, this]
  · simp [List.getElem?_set_ne (Nat.ne_of_lt hlt)]
  · simp [Tensor.elems]
  · simp [Tensor.elems, List.getElem?_append_left hslt, hxs]
  · intro ys
    simp [Tensor.elems, List.getElem?_set_ne (Nat.ne_of_lt hslt)]
  · simp [VariableVersion.read]

/-- Witness for C15: the constructed leaf 0 of the example heap, no hook, given
the gradient 1 on storage 1. -/
theorem backward_first_stores_clone_witness :
    ∃ h' p gradv d, Variable.backward exampleHooks exampleGrads 0 1 = (h', .ok ()) ∧
      h'.gradOf 0 = some p ∧ exampleGrads.vars[p]? = none ∧ h'.vars[p]? = some gradv ∧
      gradv.data = some d ∧ exampleGrads.storages[d.storage]? = none ∧ d.storage ≠ 1 ∧
      Tensor.elems h' d = some [10, 20] ∧ Tensor.elems h' ⟨1⟩ = some [10, 20] ∧
      (∀ ys, Tensor.elems { h' with storages := h'.storages.set 1 ys } d = some [10, 20]) ∧
      gradv.requires_grad = false ∧ gradv.is_volatile = true ∧ gradv.creator = none ∧
      gradv.output_nr = 0 ∧ gradv.grad = none ∧
      VariableVersion.read h' gradv.version_counter = some 0 :=
  backward_first_stores_clone exampleHooks exampleGrads exampleGrads 0 1 1
    ⟨some ⟨0⟩, none, none, ⟨0, false⟩, 0, none, false, true, []⟩
    ⟨some ⟨0⟩, none, none, ⟨0, false⟩, 0, none, false, true, []⟩
    ⟨some ⟨1⟩, none, none, ⟨1, false⟩, 0, none, true, false, []⟩ ⟨1⟩ [10, 20]
    rfl rfl rfl rfl rfl rfl rfl

/-! ### This file never writes a version counter -/

theorem cadd_versions (h : Heap) (a b c : Tensor) :
    (Tensor.cadd h a b c).1.versions = h.versions := by
  unfold Tensor.cadd
  split
  · split <;> rfl
  · rfl

theorem setGrad_versions (h : Heap) (self p : Nat) :
    (h.setGrad self p).versions = h.versions := by
  unfold Heap.setGrad
  split <;> rfl

theorem accumulate_versions (h1 : Heap) (self g : Nat) :
    ∃ ws, (Variable.accumulate h1 self g).1.versions = h1.versions ++ ws := by
  unfold Variable.accumulate
  split
  · split
    · exact ⟨[], by simp⟩
    · split
      · split
        · exact ⟨[], by simp⟩
        · rename_i h2 data hc
          have h2v : h2.versions = h1.versions := by
            unfold Tensor.clone at hc
            split at hc
            · cases hc; rfl
            · cases hc
          rw [Variable_flags_some]
          exact ⟨[0], by simp [setGrad_versions, h2v]⟩
      · split
        · exact ⟨[], by simp⟩
        · split
          · exact ⟨[], by simp⟩
          · exact ⟨[], by simp [cadd_versions]⟩
  · exact ⟨[], by simp⟩

theorem hooked_versions (hooks : HookEnv) (hh : HooksAllocateOnly hooks) (h : Heap)
    (v : Variable) (g : Nat) :
    ∃ ws, (Variable.hooked hooks h v g).1.versions = h.versions ++ ws := by
  unfold Variable.hooked
  split
  · exact (hh _ h g).2.2
  · exact ⟨[], by simp⟩

theorem backward_versions (hooks : HookEnv) (hh : HooksAllocateOnly hooks) (h : Heap)
    (self g : Nat) :
    ∃ ws, (Variable.backward hooks h self g).1.versions = h.versions ++ ws := by
  cases hv : h.vars[self]? with
  | none => exact ⟨[], by simp [Variable.backward, hv]⟩
  | some v =>
    rw [backward_eq_accumulate hooks h self g v hv]
    obtain ⟨ws1, h1⟩ := hooked_versions hooks hh h v g
    obtain ⟨ws2, h2⟩ := accumulate_versions (Variable.hooked hooks h v g).1 self
      (Variable.hooked hooks h v g).2
    exact ⟨ws1 ++ ws2, by rw [h2, h1, List.append_assoc]⟩

theorem read_of_versions_append (h h' : Heap) (vc : VariableVersion) (m : Nat) (ws : List Nat)
    (hm : VariableVersion.read h vc = some m) (hws : h'.versions = h.versions ++ ws) :
    VariableVersion.read h' vc = some m := by
  have hm' : h.versions[vc.cell]? = some m := hm
  have hlt : vc.cell < h.versions.length := (List.getElem?_eq_some_iff.mp hm').1
  simp [VariableVersion.read, hws, List.getElem?_append_left hlt, hm']

theorem exampleHooks_allocateOnly : HooksAllocateOnly exampleHooks :=
  fun _ _ _ => ⟨⟨[], by simp [exampleHooks]⟩, ⟨[], by simp [exampleHooks]⟩,
    ⟨[], by simp [exampleHooks]⟩⟩

/-- Counterexample to C13: on the example leaf whose `grad` (the `Variable` 3)
holds `[10, 20]`, a snapshot of `grad` is taken, then `backward` of the gradient
2 adds `[100, 200]` in place; the version counter of `grad` still reads 0 and
the snapshot unpacks without error, on data that now reads `[110, 220]`. -/
theorem grad_snapshot_survives_accumulation :
    ∃ s, Variable.save exampleAccumulated 3 = .ok s ∧
      exampleAccumulated.dataElems 3 = some [10, 20] ∧
      (Variable.backward exampleHooks exampleAccumulated 0 2).2 = .ok () ∧
      (Variable.backward exampleHooks exampleAccumulated 0 2).1.dataElems 3 = some [110, 220] ∧
      VariableVersion.read exampleAccumulated ⟨3, false⟩ = some 0 ∧
      VariableVersion.read (Variable.backward exampleHooks exampleAccumulated 0 2).1 ⟨3, false⟩
        = some 0 ∧
      SavedVariable.unpack (Variable.backward exampleHooks exampleAccumulated 0 2).1 s
        = .ok (some ⟨3⟩) ∧
      SavedVariable.unpack (Variable.backward exampleHooks exampleAccumulated 0 2).1 s
        ≠ .throw .modifiedInplace :=
  ⟨_, rfl, rfl, rfl, rfl, rfl, rfl, rfl, by decide⟩

/-- C13 as amended: `backward` never advances a version counter, in particular
not the one of an already present `grad` when it adds into its data in place:
the counter of `grad` reads after the call what it read before, and a snapshot
`grad.save()` taken before the call unpacks without error after it; when no
hook is set and the gradient has the shape of `grad`, the call returns and the
data of `grad` holds the element-wise sum. -/
theorem accumulate_keeps_grad_version (hooks : HookEnv) (hh : HooksAllocateOnly hooks)
    (h : Heap) (self p g : Nat) (v gradv : Variable) (d : Tensor) (m : Nat)
    (hv : h.vars[self]? = some v) (hgrad : v.grad = some p)
    (hp : h.vars[p]? = some gradv) (hpd : gradv.data = some d)
    (hm : VariableVersion.read h gradv.version_counter = some m) :
    ∃ s, Variable.save h p = .ok s ∧
      VariableVersion.read (Variable.backward hooks h self g).1 gradv.version_counter
        = some m ∧
      SavedVariable.unpack (Variable.backward hooks h self g).1 s
        = .ok (some (Tensor.clone_shallow d)) ∧
      (∀ gv t xs acc, v.backward_hook = none → h.vars[g]? = some gv → gv.data = some t →
        h.storages[t.storage]? = some xs → h.storages[d.storage]? = some acc →
        acc.length = xs.length →
        (Variable.backward hooks h self g).2 = .ok () ∧
        (Variable.backward hooks h self g).1.dataElems p
          = some (List.zipWith (· + ·) acc xs)) := by
  obtain ⟨ws, hws⟩ := backward_versions hooks hh h self g
  have hread := read_of_versions_append h _ gradv.version_counter m ws hm hws
  refine ⟨_, by simp [Variable.save, hp, hpd, hm]; rfl, hread, ?_, ?_⟩
  · have hr : VariableVersion.read (Variable.backward hooks h self g).1
        (VariableVersion.new_saved_ref gradv.version_counter) = some m := hread
    simp [SavedVariable.unpack, hr]
  · intro gv t xs acc hhook hgv hd hxs hacc hlen
    have hstep := backward_accumulate hooks h self g p v gv gradv t d xs acc hv hhook hgrad
      hp hpd hacc hgv hd hxs hlen
    have hlt : d.storage < h.storages.length := (List.getElem?_eq_some_iff.mp hacc).1
    rw [hstep]
    refine ⟨rfl, ?_⟩
    exact (dataElems_eq_some _ p _).mpr ⟨gradv, d, hp, hpd, by simp [hlt]⟩

/-- Witness for C13 as amended: the example leaf with `grad` present, given the
gradient 2. -/
theorem accumulate_keeps_grad_version_witness :
    ∃ s, Variable.save exampleAccumulated 3 = .ok s ∧
      VariableVersion.read (Variable.backward exampleHooks exampleAccumulated 0 2).1 ⟨3, false⟩
        = some 0 ∧
      SavedVariable.unpack (Variable.backward exampleHooks exampleAccumulated 0 2).1 s
        = .ok (some (Tensor.clone_shallow ⟨3⟩)) ∧
      (Variable.backward exampleHooks exampleAccumulated 0 2).2 = .ok () ∧
      (Variable.backward exampleHooks exampleAccumulated 0 2).1.dataElems 3
        = some [110, 220] :=
  match accumulate_keeps_grad_version exampleHooks exampleHooks_allocateOnly
      exampleAccumulated 0 3 2
      ⟨some ⟨0⟩, none, some 3, ⟨0, false⟩, 0, none, false, true, []⟩
      ⟨some ⟨3⟩, none, none, ⟨3, false⟩, 0, none, true, false, []⟩ ⟨3⟩ 0
      rfl rfl rfl rfl rfl with
  | ⟨s, h1, h2, h3, h4⟩ =>
    ⟨s, h1, h2, h3,
      h4 ⟨some ⟨2⟩, none, none, ⟨2, false⟩, 0, none, true, false, []⟩ ⟨2⟩ [100, 200] [10, 20]
        rfl rfl rfl rfl rfl rfl⟩

/-! ### Hooks that only allocate -/

theorem getElem?_of_append {α : Type} (l l' ws : List α) (i : Nat) (a : α)
    (hl : l' = l ++ ws) (hi : l[i]? = some a) : l'[i]? = some a := by
  have hlt : i < l.length := (List.getElem?_eq_some_iff.mp hi).1
  rw [hl, List.getElem?_append_left hlt]
  exact hi

theorem dataElems_of_append (h h' : Heap) (q : Nat) (ys : List Int) (vs : List Variable)
    (ss : List (List Int))
    (hvs : h'.vars = h.vars ++ vs) (hss : h'.storages = h.storages ++ ss)
    (hq : h.dataElems q = some ys) : h'.dataElems q = some ys := by
  obtain ⟨qv, qt, h1, h2, h3⟩ := (dataElems_eq_some h q ys).mp hq
  exact (dataElems_eq_some h' q ys).mpr
    ⟨qv, qt, getElem?_of_append _ _ vs q qv hvs h1, h2,
      getElem?_of_append _ _ ss qt.storage ys hss h3⟩

theorem doublingHooks_allocateOnly : HooksAllocateOnly doublingHooks := by
  intro k h g
  unfold doublingHooks
  cases h.dataElems g with
  | none => exact ⟨⟨[], by simp⟩, ⟨[], by simp⟩, ⟨[], by simp⟩⟩
  | some xs => exact ⟨⟨_, rfl⟩, ⟨_, rfl⟩, ⟨_, rfl⟩⟩

theorem doublingHooks_computes (k : Nat) :
    HookComputes doublingHooks k (fun xs => xs.map (fun x => 2 * x)) := by
  intro h g xs hg
  unfold doublingHooks
  rw [hg]
  exact (dataElems_eq_some _ _ _).mpr
    ⟨_, ⟨h.storages.length⟩, List.getElem?_concat_length _ _, rfl,
      List.getElem?_concat_length _ _⟩

theorem accumulate_first_frame (h : Heap) (self g : Nat) (v : Variable) (xs : List Int)
    (hv : h.vars[self]? = some v) (hgrad : v.grad = none)
    (hg : h.dataElems g = some xs) :
    ∃ k gradv, Variable.accumulate h self g = (k, .ok ()) ∧
      k.vars[self]? = some { v with grad := some h.vars.length } ∧
      k.vars[h.vars.length]? = some gradv ∧ gradv.data = some ⟨h.storages.length⟩ ∧
      k.storages[h.storages.length]? = some xs ∧
      k.versions = h.versions ++ [0] ∧
      ∀ q ys, h.dataElems q = some ys →
        ∃ qv qt, k.vars[q]? = some qv ∧ qv.data = some qt ∧
          qt.storage ≠ h.storages.length ∧ k.storages[qt.storage]? = some ys := by
  obtain ⟨gv, t, hgv, hd, hxs⟩ := (dataElems_eq_some h g xs).mp hg
  have hlt : self < h.vars.length := (List.getElem?_eq_some_iff.mp hv).1
  have hset : ∀ (a b : Variable), ((h.vars ++ [a]).set self b)[self]? = some b := by
    intro a b
    exact List.getElem?_set_self (by simp; omega)
  refine ⟨_,
    { data := some ⟨h.storages.length⟩, creator := none, grad := none,
      version_counter := { cell := h.versions.length, saved_ref := false },
      output_nr := 0, backward_hook := none, is_volatile := true,
      requires_grad := false, previous_functions := [] },
    accumulate_first h self g v gv t xs hv hgrad hgv hd hxs, hset _ _, ?_, rfl, ?_, rfl, ?_⟩
  · simp [List.getElem?_set_ne (Nat.ne_of_lt hlt)]
  · simp
  · intro q ys hq
    obtain ⟨qv, qt, hqv, hqd, hqs⟩ := (dataElems_eq_some h q ys).mp hq
    have hqlt : q < h.vars.length := (List.getElem?_eq_some_iff.mp hqv).1
    have hslt : qt.storage < h.storages.length := (List.getElem?_eq_some_iff.mp hqs).1
    have hst : (h.storages ++ [xs])[qt.storage]? = some ys := by
      rw [List.getElem?_append_left hslt]; exact hqs
    by_cases hqs' : q = self
    · subst hqs'
      rw [hv] at hqv
      cases hqv
      exact ⟨{ v with grad := some h.vars.length }, qt, hset _ _, hqd,
        Nat.ne_of_lt hslt, hst⟩
    · refine ⟨qv, qt, ?_, hqd, Nat.ne_of_lt hslt, hst⟩
      simpa [List.getElem?_set_ne (Ne.symm hqs'), List.getElem?_append_left hqlt] using hqv

theorem backwardAll_hook_accumulate (hooks : HookEnv) (hh : HooksAllocateOnly hooks)
    (kk : Nat) (φ : List Int → List Int) (hφ : HookComputes hooks kk φ) (n : Nat)
    (hlen : ∀ xs : List Int, xs.length = n → (φ xs).length = n) (dat : Nat → List Int)
    (self P S : Nat) (gs : List Nat) (k : Heap) (w gradv : Variable) (acc : List Int)
    (hself : k.vars[self]? = some w) (hhook : w.backward_hook = some kk)
    (hgrad : w.grad = some P)
    (hP : k.vars[P]? = some gradv) (hPd : gradv.data = some ⟨S⟩)
    (hacc : k.storages[S]? = some acc) (haccn : acc.length = n)
    (hgs : ∀ g ∈ gs, ∃ gv t, k.vars[g]? = some gv ∧ gv.data = some t ∧ t.storage ≠ S ∧
      k.storages[t.storage]? = some (dat g) ∧ (dat g).length = n) :
    ∃ k', backwardAll hooks k self gs = (k', .ok ()) ∧ k'.vars[self]? = some w ∧
      k'.vars[P]? = some gradv ∧
      k'.storages[S]? = some (elementwiseSum n (acc :: gs.map (fun g => φ (dat g)))) := by
  induction gs generalizing k acc with
  | nil =>
    exact ⟨k, rfl, hself, hP, by simp [hacc, elementwiseSum_singleton n acc haccn]⟩
  | cons g gs ih =>
    obtain ⟨gv, t, hgv, hd, hne, hxs, hxn⟩ := hgs g (List.mem_cons_self _ _)
    obtain ⟨⟨vs, hvs⟩, ⟨ss, hss⟩, _⟩ := hh kk k g
    have hkg : k.dataElems g = some (dat g) :=
      (dataElems_eq_some k g _).mpr ⟨gv, t, hgv, hd, hxs⟩
    obtain ⟨gv', t', hgv', hd', hxs'⟩ := (dataElems_eq_some _ _ _).mp (hφ k g (dat g) hkg)
    have hself1 := getElem?_of_append _ _ vs self w hvs hself
    have hP1 := getElem?_of_append _ _ vs P gradv hvs hP
    have hacc1 := getElem?_of_append _ _ ss S acc hss hacc
    have hS : S < (hooks kk k g).1.storages.length := (List.getElem?_eq_some_iff.mp hacc1).1
    have hyn : (φ (dat g)).length = n := hlen _ hxn
    have hb : Variable.backward hooks k self g =
        ({ (hooks kk k g).1 with
            storages := (hooks kk k g).1.storages.set S
              (List.zipWith (· + ·) acc (φ (dat g))) }, .ok ()) := by
      rw [backward_eq_accumulate hooks k self g w hself]
      simp only [Variable.hooked, hhook]
      exact accumulate_add _ self _ P w gv' gradv t' ⟨S⟩ _ acc hself1 hgrad hP1 hPd hacc1
        hgv' hd' hxs' (by omega)
    obtain ⟨k', hk', hs', hP', hsum⟩ :=
      ih { (hooks kk k g).1 with
            storages := (hooks kk k g).1.storages.set S
              (List.zipWith (· + ·) acc (φ (dat g))) }
        (List.zipWith (· + ·) acc (φ (dat g))) hself1 hP1 (by simp [hS])
        (by simp [haccn, hyn])
        (by
          intro g' hg'
          obtain ⟨qv, qt, h1, h2, h3, h4, h5⟩ := hgs g' (List.mem_cons_of_mem _ hg')
          refine ⟨qv, qt, getElem?_of_append _ _ vs g' qv hvs h1, h2, h3, ?_, h5⟩
          have := getElem?_of_append _ _ ss qt.storage _ hss h4
          simpa [List.getElem?_set_ne (Ne.symm h3)] using this)
    refine ⟨k', ?_, hs', hP', ?_⟩
    · simp only [backwardAll, hb]
      exact hk'
    · rw [hsum, elementwiseSum_zipWith n acc _ _ haccn hyn]
      rfl

/-- C14: on a `Variable` with the hook `k` registered, `backward(g)` is the
accumulation run on the heap and the gradient that one call of the hook on `g`
leaves; on a `Variable` with no hook it is the accumulation run on `g` itself;
and when the hook only allocates and computes `φ` on gradient data, `N ≥ 1`
calls with `g1..gN` (of `n` elements each) starting from an absent `grad` all
return and leave in `grad` the element-wise sum of `φ g1, ..., φ gN`. -/
theorem backward_applies_hook (hooks : HookEnv) (hh : HooksAllocateOnly hooks) (h : Heap)
    (self k : Nat) (v : Variable) (φ : List Int → List Int) (n : Nat) (gs : List Nat)
    (hv : h.vars[self]? = some v) (hhook : v.backward_hook = some k)
    (hφ : HookComputes hooks k φ)
    (hlen : ∀ xs : List Int, xs.length = n → (φ xs).length = n)
    (hgrad : v.grad = none) (hne : gs ≠ [])
    (hgs : ∀ g ∈ gs, ∃ xs, h.dataElems g = some xs ∧ xs.length = n) :
    (∀ g, Variable.backward hooks h self g =
      Variable.accumulate (hooks k h g).1 self (hooks k h g).2) ∧
    (∀ self' v' g, h.vars[self']? = some v' → v'.backward_hook = none →
      Variable.backward hooks h self' g = Variable.accumulate h self' g) ∧
    ∃ h' p, backwardAll hooks h self gs = (h', .ok ()) ∧ h'.gradOf self = some p ∧
      h'.dataElems p
        = some (elementwiseSum n (gs.map (fun g => φ ((h.dataElems g).getD [])))) := by
  have hone : ∀ g, Variable.backward hooks h self g =
      Variable.accumulate (hooks k h g).1 self (hooks k h g).2 := by
    intro g
    rw [backward_eq_accumulate hooks h self g v hv]
    simp only [Variable.hooked, hhook]
  refine ⟨hone, ?_, ?_⟩
  · intro self' v' g hv' hnone
    rw [backward_eq_accumulate hooks h self' g v' hv']
    simp only [Variable.hooked, hnone]
  · cases gs with
    | nil => exact absurd rfl hne
    | cons g rest =>
      obtain ⟨xs, hg, hxn⟩ := hgs g (List.mem_cons_self _ _)
      obtain ⟨⟨vs, hvs⟩, ⟨ss, hss⟩, _⟩ := hh k h g
      have hself1 := getElem?_of_append _ _ vs self v hvs hv
      obtain ⟨k1, gradv, hstep, kself, kP, kPd, kS, _, kframe⟩ :=
        accumulate_first_frame (hooks k h g).1 self (hooks k h g).2 v (φ xs) hself1 hgrad
          (hφ h g xs hg)
      obtain ⟨k', hk', hs', hP', hsum⟩ :=
        backwardAll_hook_accumulate hooks hh k φ hφ n hlen (fun g => (h.dataElems g).getD [])
          self (hooks k h g).1.vars.length (hooks k h g).1.storages.length rest k1 _ gradv
          (φ xs) kself hhook rfl kP kPd kS (hlen xs hxn)
          (by
            intro g' hg'
            obtain ⟨ys, hys, hyn⟩ := hgs g' (List.mem_cons_of_mem _ hg')
            obtain ⟨qv, qt, h1, h2, h3, h4⟩ :=
              kframe g' ys (dataElems_of_append h _ g' ys vs ss hvs hss hys)
            exact ⟨qv, qt, h1, h2, h3, by simpa [hys] using h4, by simpa [hys] using hyn⟩)
      refine ⟨k', (hooks k h g).1.vars.length, ?_, ?_, ?_⟩
      · simp only [backwardAll, hone g, hstep]
        exact hk'
      · simp [Heap.gradOf, hs']
      · rw [(dataElems_eq_some k' _ _).mpr ⟨gradv, _, hP', kPd, hsum⟩]
        simp [hg]

/-- Witness for C14: the example leaf with the doubling hook registered receives
the gradients 1 and 2, holding `[10, 20]` and `[100, 200]`. -/
theorem backward_applies_hook_witness :
    ∃ h' p, backwardAll doublingHooks exampleHooked 0 [1, 2] = (h', .ok ()) ∧
      h'.gradOf 0 = some p ∧ h'.dataElems p = some [220, 440] :=
  (backward_applies_hook doublingHooks doublingHooks_allocateOnly exampleHooked 0 0
    ⟨some ⟨0⟩, none, none, ⟨0, false⟩, 0, some 0, false, true, []⟩
    (fun xs => xs.map (fun x => 2 * x)) 2 [1, 2] rfl rfl (doublingHooks_computes 0)
    (fun xs hxs => by simpa using hxs) rfl (by decide) (by decide)).2.2

/-! ### Version counters never decrease -/

theorem cadd_vars (h : Heap) (a b c : Tensor) : (Tensor.cadd h a b c).1.vars = h.vars := by
  unfold Tensor.cadd
  split
  · split <;> rfl
  · rfl

theorem accumulate_self_frame (h1 : Heap) (self g : Nat) (v : Variable)
    (hv : h1.vars[self]? = some v) :
    ∃ v1, (Variable.accumulate h1 self g).1.vars[self]? = some v1 ∧ v1.data = v.data ∧
      v1.creator = v.creator ∧ v1.version_counter = v.version_counter ∧
      v1.output_nr = v.output_nr ∧ v1.backward_hook = v.backward_hook := by
  have hlt : self < h1.vars.length := (List.getElem?_eq_some_iff.mp hv).1
  have same : ∃ v1, h1.vars[self]? = some v1 ∧ v1.data = v.data ∧
      v1.creator = v.creator ∧ v1.version_counter = v.version_counter ∧
      v1.output_nr = v.output_nr ∧ v1.backward_hook = v.backward_hook :=
    ⟨v, hv, rfl, rfl, rfl, rfl, rfl⟩
  unfold Variable.accumulate
  split
  · rename_i v1 go hv1 hgo
    rw [hv] at hv1
    cases hv1
    split
    · exact same
    · split
      · split
        · exact same
        · rename_i h2 data hc
          have h2v : h2.vars = h1.vars := by
            unfold Tensor.clone at hc
            split at hc
            · cases hc; rfl
            · cases hc
          rw [Variable_flags_some]
          simp only [Heap.setGrad, h2v, List.getElem?_append_left hlt, hv]
          exact ⟨_, List.getElem?_set_self (by simp; omega), rfl, rfl, rfl, rfl, rfl⟩
      · split
        · exact same
        · split
          · exact same
          · rw [cadd_vars]
            exact same
  · exact same

theorem backward_self_frame (hooks : HookEnv) (hh : HooksAllocateOnly hooks) (h : Heap)
    (self g : Nat) (v : Variable) (hv : h.vars[self]? = some v) :
    ∃ v1, (Variable.backward hooks h self g).1.vars[self]? = some v1 ∧ v1.data = v.data ∧
      v1.creator = v.creator ∧ v1.version_counter = v.version_counter ∧
      v1.output_nr = v.output_nr ∧ v1.backward_hook = v.backward_hook := by
  rw [backward_eq_accumulate hooks h self g v hv]
  have hv1 : (Variable.hooked hooks h v g).1.vars[self]? = some v := by
    unfold Variable.hooked
    split
    · obtain ⟨⟨vs, hvs⟩, _, _⟩ := hh _ h g
      exact getElem?_of_append _ _ vs self v hvs hv
    · exact hv
  exact accumulate_self_frame _ self _ v hv1

theorem hooked_spec (hooks : HookEnv) (hh : HooksAllocateOnly hooks) (h : Heap)
    (v : Variable) (g : Nat) (xs : List Int) (n : Nat)
    (hhook : ∀ k, v.backward_hook = some k →
      ∃ φ, HookComputes hooks k φ ∧ ∀ ys : List Int, ys.length = n → (φ ys).length = n)
    (hg : h.dataElems g = some xs) (hxn : xs.length = n) :
    ∃ vs ss ws ys, (Variable.hooked hooks h v g).1.vars = h.vars ++ vs ∧
      (Variable.hooked hooks h v g).1.storages = h.storages ++ ss ∧
      (Variable.hooked hooks h v g).1.versions = h.versions ++ ws ∧
      (Variable.hooked hooks h v g).1.dataElems (Variable.hooked hooks h v g).2 = some ys ∧
      ys.length = n := by
  cases hk : v.backward_hook with
  | none =>
    simp only [Variable.hooked, hk]
    exact ⟨[], [], [], xs, by simp, by simp, by simp, hg, hxn⟩
  | some k =>
    obtain ⟨φ, hφ, hlen⟩ := hhook k hk
    obtain ⟨⟨vs, hvs⟩, ⟨ss, hss⟩, ⟨ws, hws⟩⟩ := hh k h g
    simp only [Variable.hooked, hk]
    exact ⟨vs, ss, ws, φ xs, hvs, hss, hws, hφ h g xs hg, hlen xs hxn⟩

theorem accumulate_step_shapes (h1 : Heap) (self g : Nat) (v : Variable) (ys : List Int)
    (n : Nat)
    (hv : h1.vars[self]? = some v) (hg : h1.dataElems g = some ys) (hyn : ys.length = n)
    (hshape : ∀ p, v.grad = some p → ∃ acc, h1.dataElems p = some acc ∧ acc.length = n) :
    ∃ k p acc, Variable.accumulate h1 self g = (k, .ok ()) ∧
      k.vars[self]? = some { v with grad := some p } ∧
      k.dataElems p = some acc ∧ acc.length = n ∧
      (∃ ws, k.versions = h1.versions ++ ws) ∧
      (∀ q zs, h1.dataElems q = some zs → zs.length = n →
        ∃ zs', k.dataElems q = some zs' ∧ zs'.length = n) := by
  cases hgrad : v.grad with
  | none =>
    obtain ⟨k, gradv, hstep, kself, kP, kPd, kS, kver, kframe⟩ :=
      accumulate_first_frame h1 self g v ys hv hgrad hg
    refine ⟨k, h1.vars.length, ys, hstep, kself,
      (dataElems_eq_some k _ _).mpr ⟨gradv, _, kP, kPd, kS⟩, hyn, ⟨[0], kver⟩, ?_⟩
    intro q zs hq hzn
    obtain ⟨qv, qt, e1, e2, _, e4⟩ := kframe q zs hq
    exact ⟨zs, (dataElems_eq_some k q zs).mpr ⟨qv, qt, e1, e2, e4⟩, hzn⟩
  | some p =>
    obtain ⟨acc, hacc, haccn⟩ := hshape p hgrad
    obtain ⟨gradv, d, hp, hpd, hs⟩ := (dataElems_eq_some h1 p acc).mp hacc
    obtain ⟨gv, t, hgv, hd, hxs⟩ := (dataElems_eq_some h1 g ys).mp hg
    have hstep := accumulate_add h1 self g p v gv gradv t d ys acc hv hgrad hp hpd hs hgv hd
      hxs (by omega)
    have hlt : d.storage < h1.storages.length := (List.getElem?_eq_some_iff.mp hs).1
    have hself : h1.vars[self]? = some { v with grad := some p } := by
      rw [hv, ← hgrad]
    refine ⟨_, p, List.zipWith (· + ·) acc ys, hstep, hself,
      (dataElems_eq_some _ p _).mpr ⟨gradv, d, hp, hpd, by simp [hlt]⟩,
      by simp [haccn, hyn], ⟨[], by simp⟩, ?_⟩
    intro q zs hq hzn
    obtain ⟨qv, qt, e1, e2, e3⟩ := (dataElems_eq_some h1 q zs).mp hq
    by_cases hst : qt.storage = d.storage
    · exact ⟨List.zipWith (· + ·) acc ys,
        (dataElems_eq_some _ q _).mpr ⟨qv, qt, e1, e2, by simp [hst, hlt]⟩,
        by simp [haccn, hyn]⟩
    · exact ⟨zs, (dataElems_eq_some _ q _).mpr
        ⟨qv, qt, e1, e2, by simpa [List.getElem?_set_ne (Ne.symm hst)] using e3⟩, hzn⟩

theorem backward_step_shapes (hooks : HookEnv) (hh : HooksAllocateOnly hooks) (h : Heap)
    (self g : Nat) (v : Variable) (xs : List Int) (n : Nat)
    (hv : h.vars[self]? = some v)
    (hhook : ∀ k, v.backward_hook = some k →
      ∃ φ, HookComputes hooks k φ ∧ ∀ ys : List Int, ys.length = n → (φ ys).length = n)
    (hg : h.dataElems g = some xs) (hxn : xs.length = n)
    (hshape : ∀ p, v.grad = some p → ∃ acc, h.dataElems p = some acc ∧ acc.length = n) :
    ∃ h1 p acc, Variable.backward hooks h self g = (h1, .ok ()) ∧
      h1.vars[self]? = some { v with grad := some p } ∧
      h1.dataElems p = some acc ∧ acc.length = n ∧
      (∃ ws, h1.versions = h.versions ++ ws) ∧
      (∀ q zs, h.dataElems q = some zs → zs.length = n →
        ∃ zs', h1.dataElems q = some zs' ∧ zs'.length = n) := by
  obtain ⟨vs, ss, ws, ys, hvs, hss, hws, hys, hyn⟩ := hooked_spec hooks hh h v g xs n hhook hg hxn
  obtain ⟨k, p, acc, hstep, kself, kp, kaccn, ⟨ws2, kver⟩, kframe⟩ :=
    accumulate_step_shapes (Variable.hooked hooks h v g).1 self (Variable.hooked hooks h v g).2
      v ys n (getElem?_of_append _ _ vs self v hvs hv) hys hyn
      (by
        intro p hp
        obtain ⟨acc, hacc, haccn⟩ := hshape p hp
        exact ⟨acc, dataElems_of_append h _ p acc vs ss hvs hss hacc, haccn⟩)
  refine ⟨k, p, acc, (backward_eq_accumulate hooks h self g v hv).trans hstep, kself, kp, kaccn,
    ⟨ws ++ ws2, by rw [kver, hws, List.append_assoc]⟩, ?_⟩
  intro q zs hq hzn
  exact kframe q zs (dataElems_of_append h _ q zs vs ss hvs hss hq) hzn

theorem applyAll_ok (hooks : HookEnv) (hh : HooksAllocateOnly hooks) (self n : Nat)
    (gs : List Nat) (h : Heap) (v : Variable)
    (hv : h.vars[self]? = some v) (hc : v.creator = none)
    (h0 : VariableVersion.read h v.version_counter = some 0)
    (hhook : ∀ k, v.backward_hook = some k →
      ∃ φ, HookComputes hooks k φ ∧ ∀ ys : List Int, ys.length = n → (φ ys).length = n)
    (hshape : ∀ p, v.grad = some p → ∃ acc, h.dataElems p = some acc ∧ acc.length = n)
    (hgs : ∀ g ∈ gs, ∃ xs, h.dataElems g = some xs ∧ xs.length = n) :
    ∃ h' v', applyAll hooks h self gs = (h', .ok ()) ∧ h'.vars[self]? = some v' ∧
      v'.creator = none ∧ VariableVersion.read h' v'.version_counter = some 0 := by
  induction gs generalizing h v with
  | nil => exact ⟨h, v, rfl, hv, hc, h0⟩
  | cons g gs ih =>
    obtain ⟨xs, hg, hxn⟩ := hgs g (List.mem_cons_self _ _)
    obtain ⟨h1, p, acc, hb, kself, kp, kaccn, ⟨ws, kver⟩, kframe⟩ :=
      backward_step_shapes hooks hh h self g v xs n hv hhook hg hxn hshape
    have hap : Variable.apply hooks h self [g] = (h1, .ok []) := by
      simp [Variable.apply, hv, hc, h0, hb]
    obtain ⟨h', v', hall, hv', hc', h0'⟩ :=
      ih h1 { v with grad := some p } kself hc
        (read_of_versions_append h h1 v.version_counter 0 ws h0 kver) hhook
        (by
          intro p' hp'
          cases hp'
          exact ⟨acc, kp, kaccn⟩)
        (by
          intro g' hg'
          obtain ⟨zs, hzs, hzn⟩ := hgs g' (List.mem_cons_of_mem _ hg')
          exact kframe g' zs hzs hzn)
    exact ⟨h', v', by simp only [applyAll, hap]; exact hall, hv', hc', h0'⟩

/-- C20: `backward` leaves the version counter (handle and reading), the
creator and the `output_nr` of the receiving `Variable` as they were, and `save`
does not touch the heap at all.  So (i) on a true leaf any number of consecutive
`apply([g])` calls with gradients of one shape all return and the leaf is still
a true leaf; (ii) a snapshot taken before a `backward` call and one taken after
it both unpack without error after the call. -/
theorem backward_save_frame (hooks : HookEnv) (hh : HooksAllocateOnly hooks) (h : Heap)
    (self : Nat) (v : Variable) (t : Tensor) (m : Nat)
    (hv : h.vars[self]? = some v) (hd : v.data = some t)
    (hm : VariableVersion.read h v.version_counter = some m) :
    (∀ g, ∃ v1, (Variable.backward hooks h self g).1.vars[self]? = some v1 ∧
      v1.version_counter = v.version_counter ∧ v1.creator = v.creator ∧
      v1.output_nr = v.output_nr ∧
      VariableVersion.read (Variable.backward hooks h self g).1 v1.version_counter = some m) ∧
    (∀ (n : Nat) (gs : List Nat), v.creator = none → m = 0 →
      (∀ k, v.backward_hook = some k →
        ∃ φ, HookComputes hooks k φ ∧ ∀ ys : List Int, ys.length = n → (φ ys).length = n) →
      (∀ p, v.grad = some p → ∃ acc, h.dataElems p = some acc ∧ acc.length = n) →
      (∀ g ∈ gs, ∃ xs, h.dataElems g = some xs ∧ xs.length = n) →
      ∃ h' v', applyAll hooks h self gs = (h', .ok ()) ∧ h'.vars[self]? = some v' ∧
        v'.creator = none ∧ VariableVersion.read h' v'.version_counter = some 0) ∧
    (∀ g, ∃ s1 s2, Variable.save h self = .ok s1 ∧
      Variable.save (Variable.backward hooks h self g).1 self = .ok s2 ∧
      SavedVariable.unpack h s1 = .ok (some (Tensor.clone_shallow t)) ∧
      SavedVariable.unpack (Variable.backward hooks h self g).1 s1
        = .ok (some (Tensor.clone_shallow t)) ∧
      SavedVariable.unpack (Variable.backward hooks h self g).1 s2
        = .ok (some (Tensor.clone_shallow t))) := by
  have hread : ∀ g, VariableVersion.read (Variable.backward hooks h self g).1 v.version_counter
      = some m := by
    intro g
    obtain ⟨ws, hws⟩ := backward_versions hooks hh h self g
    exact read_of_versions_append h _ v.version_counter m ws hm hws
  refine ⟨?_, ?_, ?_⟩
  · intro g
    obtain ⟨v1, hv1, _, e2, e3, e4, _⟩ := backward_self_frame hooks hh h self g v hv
    exact ⟨v1, hv1, e3, e2, e4, by rw [e3]; exact hread g⟩
  · intro n gs hc h0 hhook hshape hgs
    subst h0
    exact applyAll_ok hooks hh self n gs h v hv hc hm hhook hshape hgs
  · intro g
    obtain ⟨v1, hv1, e1, _, e3, _, _⟩ := backward_self_frame hooks hh h self g v hv
    have hr0 : VariableVersion.read h (VariableVersion.new_saved_ref v.version_counter)
        = some m := hm
    have hr1 : VariableVersion.read (Variable.backward hooks h self g).1
        (VariableVersion.new_saved_ref v.version_counter) = some m := hread g
    refine ⟨_, _, by simp [Variable.save, hv, hd, hm]; rfl,
      by simp [Variable.save, hv1, e1, hd, e3, hread g]; rfl, ?_, ?_, ?_⟩
    · simp [SavedVariable.unpack, hr0]
    · simp [SavedVariable.unpack, hr1]
    · simp [SavedVariable.unpack, hr1]

/-- Witness for C20: the example leaf with the doubling hook; three `apply`
calls in a row return, and two snapshots around a `backward` call both unpack. -/
theorem backward_save_frame_witness :
    (∃ h' v', applyAll doublingHooks exampleHooked 0 [1, 2, 1] = (h', .ok ()) ∧
      h'.vars[0]? = some v' ∧ v'.creator = none ∧
      VariableVersion.read h' v'.version_counter = some 0) ∧
    (∃ s1 s2, Variable.save exampleHooked 0 = .ok s1 ∧
      Variable.save (Variable.backward doublingHooks exampleHooked 0 1).1 0 = .ok s2 ∧
      SavedVariable.unpack exampleHooked s1 = .ok (some (Tensor.clone_shallow ⟨0⟩)) ∧
      SavedVariable.unpack (Variable.backward doublingHooks exampleHooked 0 1).1 s1
        = .ok (some (Tensor.clone_shallow ⟨0⟩)) ∧
      SavedVariable.unpack (Variable.backward doublingHooks exampleHooked 0 1).1 s2
        = .ok (some (Tensor.clone_shallow ⟨0⟩))) :=
  match backward_save_frame doublingHooks doublingHooks_allocateOnly exampleHooked 0
      ⟨some ⟨0⟩, none, none, ⟨0, false⟩, 0, some 0, false, true, []⟩ ⟨0⟩ 0 rfl rfl rfl with
  | ⟨_, hi, hii⟩ =>
    ⟨hi 2 [1, 2, 1] rfl rfl
        (fun k _ => ⟨fun xs => xs.map (fun x => 2 * x), doublingHooks_computes k,
          fun ys hys => by simpa using hys⟩)
        (fun _ hp => nomatch hp) (by decide),
      hii 1⟩

end Autograd
